import Mathlib

/-! GPON ONU upstream scheduling core (`src/src/onu.cc`).

A shallow embedding of `ONU::handleMessage` and of the state it acts on.

Modelling conventions.

* A C++ `double` and a simulation time (`simtime_t`) are modelled by exact
  rationals `ℚ`; rounding is not modelled.
* A `cQueue` is a list, front of the queue first: `insert` appends at the
  tail, `front` reads the head, `pop` removes the head.
* The handler's calls into the host simulator (`send`, `scheduleAt`,
  `cancelAndDelete`, `delete`, `emit`) are recorded, in program order, as a
  list of `Action`s returned next to the new state. What the host does with a
  call (delivery, its own argument checks) is outside the handler and is not
  modelled; the sending time the host stamps on a sent packet is the current
  simulation time.
* `check_and_cast` on a message of the wrong class and a read through the
  null pointer returned by `front()` on an empty queue end the handler with a
  `Fault`.
-/

namespace GPON

/-- Process-wide constants of `sim_params.h` (the header is not part of the
sources at hand), taken as parameters. -/
structure SimParams where
  onu_buffer_capacity : ℚ
  pon_link_datarate : ℚ
  max_polling_cycle : ℚ

/-- An `ethPacket`: a `cPacket` of `bitLength` bits with the four fields the
handler writes or reads. `payload` stands for the opaque contents and tells
packets apart. -/
structure ethPacket where
  payload : Nat
  bitLength : Nat
  onuArrivalTime : ℚ
  onuDepartureTime : ℚ
  onuId : Int
  tContId : Int
deriving DecidableEq

/-- Host accessor `cPacket::getByteLength()`: the bit length rounded up to whole bytes. -/
def ethPacket.getByteLength (p : ethPacket) : Nat := (p.bitLength + 7) / 8

/-- A `gtc_header` frame: a `cPacket` with an uplink flag, an ONU identity and
three per-ONU vectors read by the grant receiver. -/
structure gtc_header where
  bitLength : Nat
  uplink : Bool
  onuID : Int
  olt_onu_rtt : Nat → ℚ
  onu_start_time_TC3 : Nat → ℚ
  onu_grant_TC3 : Nat → ℚ

/-- Host accessor `cPacket::getByteLength()` on a GTC header. -/
def gtc_header.getByteLength (h : gtc_header) : Nat := (h.bitLength + 7) / 8

/-- A freshly constructed `gtc_header`: every field at its zero default. -/
def gtc_header.fresh : gtc_header :=
  { bitLength := 0, uplink := false, onuID := 0,
    olt_onu_rtt := fun _ => 0, onu_start_time_TC3 := fun _ => 0, onu_grant_TC3 := fun _ => 0 }

/-- Host mutator `cPacket::setByteLength(n)`: the length becomes `8 * n` bits. -/
def gtc_header.setByteLength (h : gtc_header) (n : Nat) : gtc_header :=
  { h with bitLength := 8 * n }

/-- A `ping` probe: the ONU identifier field and the rest of the frame. -/
structure ping where
  ONU_id : Int
  rest : Nat
deriving DecidableEq

/-- The dynamic class of an incoming message. `eth`, `gtc` and `otherPacket`
are `cPacket`s; `png` and `plain` are messages that are not packets. -/
inductive Body where
  | eth (p : ethPacket)
  | gtc (h : gtc_header)
  | otherPacket
  | png (p : ping)
  | plain

/-- An incoming `cMessage`: its name, its dynamic class and the arrival time
stamped by the host. -/
structure Msg where
  name : String
  body : Body
  arrivalTime : ℚ

/-- Host predicate `cMessage::isPacket()`. -/
def Msg.isPacket (m : Msg) : Bool :=
  match m.body with
  | .eth _ => true
  | .gtc _ => true
  | .otherPacket => true
  | .png _ => false
  | .plain => false

/-- Ways a handler run ends without a result: a failed `check_and_cast`, a
read through the null `front()` of an empty queue, and (for the iterated
drain only) an exhausted iteration budget. -/
inductive Fault where
  | castFailure
  | nullFront
  | fuelExhausted
deriving DecidableEq

/-- Calls into the host simulator made by the handler. -/
inductive Action where
  /-- `send(data, "SpltGate_o")` of an ethernet packet. -/
  | sendEth (p : ethPacket)
  /-- `send(gtc_hdr_ul, "SpltGate_o")`. -/
  | sendGtc (h : gtc_header)
  /-- `send(png, "SpltGate_o")`. -/
  | sendPing (p : ping)
  /-- `scheduleAt(t, new cMessage(name))`. -/
  | scheduleNew (t : ℚ) (name : String)
  /-- `scheduleAt(t, msg)` of the self-message being handled. -/
  | reschedule (t : ℚ)
  /-- `cancelAndDelete(msg)` or `delete pkt` of the message being handled. -/
  | deleteMsg
  /-- `emit(latencySignal, v)`. -/
  | emitLatency (v : ℚ)

/-- The data members of class `ONU`. -/
structure ONU where
  queue_TC1 : List ethPacket
  queue_TC2 : List ethPacket
  queue_TC3 : List ethPacket
  capacity : ℚ
  pending_buffer_TC1 : ℚ
  pending_buffer_TC2 : ℚ
  pending_buffer_TC3 : ℚ
  packet_drop_count : ℚ
  olt_onu_rtt : ℚ
  start_time_TC1 : ℚ
  onu_rx_grant_TC1 : ℚ
  onu_grant_TC1 : ℚ
  start_time_TC2 : ℚ
  onu_rx_grant_TC2 : ℚ
  onu_grant_TC2 : ℚ
  start_time_TC3 : ℚ
  onu_rx_grant_TC3 : ℚ
  onu_grant_TC3 : ℚ
  gtc_hdr_sz : ℚ
  gtc_pkt_sz : ℚ

/-- The state after the member initialisers and `ONU::initialize()`. -/
def ONU.init (prm : SimParams) : ONU :=
  { queue_TC1 := [], queue_TC2 := [], queue_TC3 := [],
    capacity := prm.onu_buffer_capacity,
    pending_buffer_TC1 := 0, pending_buffer_TC2 := 0, pending_buffer_TC3 := 0,
    packet_drop_count := 0, olt_onu_rtt := 0,
    start_time_TC1 := 0, onu_rx_grant_TC1 := 0, onu_grant_TC1 := 0,
    start_time_TC2 := 0, onu_rx_grant_TC2 := 0, onu_grant_TC2 := 0,
    start_time_TC3 := 0, onu_rx_grant_TC3 := 0, onu_grant_TC3 := 0,
    gtc_hdr_sz := 0, gtc_pkt_sz := 0 }

/-- Branch `bkg_data` of `handleMessage` (lines 74-86), after the cast. -/
def onBkgData (prm : SimParams) (index : Nat) (now : ℚ) (pkt : ethPacket) (s : ONU) :
    ONU × List Action :=
  let buffer : ℚ :=
    s.pending_buffer_TC1 + s.pending_buffer_TC2 + s.pending_buffer_TC3 + pkt.getByteLength
  if buffer ≤ prm.onu_buffer_capacity then
    let pkt1 : ethPacket := { pkt with onuArrivalTime := now, onuId := index, tContId := 3 }
    ({ s with queue_TC3 := s.queue_TC3 ++ [pkt1],
              pending_buffer_TC3 := s.pending_buffer_TC3 + pkt1.getByteLength }, [])
  else
    (s, [])

/-- Branch `gtc_hdr_dl` of `handleMessage` (lines 89-104), after the cast. -/
def onGtcHdrDl (prm : SimParams) (index : Nat) (arr_time : ℚ) (pkt : gtc_header) (s : ONU) :
    ONU × List Action :=
  let s1 : ONU := { s with olt_onu_rtt := pkt.olt_onu_rtt index,
                           start_time_TC3 := pkt.onu_start_time_TC3 index,
                           onu_rx_grant_TC3 := pkt.onu_grant_TC3 index }
  let ul_tx_time : ℚ :=
    arr_time + 2 * prm.max_polling_cycle + s1.start_time_TC3 - s1.olt_onu_rtt
  (s1, [Action.scheduleNew ul_tx_time "send_ul_header", Action.deleteMsg])

/-- Branch `ping` of `handleMessage` (lines 109-111), after the cast. -/
def onPing (index : Nat) (png : ping) (s : ONU) : ONU × List Action :=
  (s, [Action.sendPing { png with ONU_id := index }])

/-- Branch `send_ul_header` of `handleMessage` (lines 115-131). The host stamps
the sending time of the header with the current simulation time. -/
def onSendUlHeader (prm : SimParams) (index : Nat) (now : ℚ) (s : ONU) : ONU × List Action :=
  let gtc_hdr_sz : ℚ := 3 + 1 + 1 + 5 + 8
  let s1 : ONU := { s with gtc_hdr_sz := gtc_hdr_sz,
                           onu_grant_TC3 := s.onu_rx_grant_TC3 - gtc_hdr_sz }
  let gtc_hdr_ul : gtc_header :=
    { gtc_header.fresh.setByteLength (3 + 1 + 1 + 5 + 8) with uplink := true, onuID := index }
  let Txtime : ℚ := gtc_hdr_ul.bitLength / prm.pon_link_datarate
  (s1, [Action.deleteMsg, Action.sendGtc gtc_hdr_ul,
        Action.scheduleNew (now + Txtime) "send_ul_payload"])

/-- Branch `send_ul_payload` of `handleMessage` (lines 136-163). The host
stamps the sending time of the data packet with the current simulation time. -/
def onSendUlPayload (prm : SimParams) (now : ℚ) (s : ONU) : Except Fault (ONU × List Action) :=
  if 0 < s.onu_grant_TC3 ∧ 0 < s.pending_buffer_TC3 then
    match s.queue_TC3 with
    | [] => .error .nullFront
    | front :: tail =>
      if (front.getByteLength : ℚ) ≤ s.onu_grant_TC3 then
        let s1 : ONU := { s with queue_TC3 := tail,
                                 onu_grant_TC3 := s.onu_grant_TC3 - front.getByteLength,
                                 pending_buffer_TC3 := s.pending_buffer_TC3 - front.getByteLength }
        let data : ethPacket := { front with onuDepartureTime := now }
        let packet_latency : ℚ := data.onuDepartureTime - data.onuArrivalTime
        let Txtime : ℚ := data.bitLength / prm.pon_link_datarate
        .ok (s1, [Action.sendEth data, Action.emitLatency packet_latency,
                  Action.reschedule (now + Txtime)])
      else
        .ok (s, [Action.deleteMsg])
  else
    .ok (s, [Action.deleteMsg])

/-- The handler `ONU::handleMessage` at simulation time `now` on the ONU of
vector index `index`. -/
def handleMessage (prm : SimParams) (index : Nat) (now : ℚ) (msg : Msg) (s : ONU) :
    Except Fault (ONU × List Action) :=
  if msg.isPacket = true then
    if msg.name = "bkg_data" then
      match msg.body with
      | .eth pkt => .ok (onBkgData prm index now pkt s)
      | _ => .error .castFailure
    else if msg.name = "gtc_hdr_dl" then
      match msg.body with
      | .gtc pkt => .ok (onGtcHdrDl prm index msg.arrivalTime pkt s)
      | _ => .error .castFailure
    else
      .ok (s, [])
  else
    if msg.name = "ping" then
      match msg.body with
      | .png p => .ok (onPing index p s)
      | _ => .error .castFailure
    else if msg.name = "send_ul_header" then
      .ok (onSendUlHeader prm index now s)
    else if msg.name = "send_ul_payload" then
      onSendUlPayload prm now s
    else
      .ok (s, [])

/-- A delivered event: the message and the simulation time of its delivery. -/
structure Event where
  now : ℚ
  msg : Msg

/-- A subscriber data packet `bkg_data` arriving on the source port. -/
def Msg.bkg_data (p : ethPacket) (arrivalTime : ℚ) : Msg :=
  { name := "bkg_data", body := .eth p, arrivalTime := arrivalTime }

/-- A downstream GTC header `gtc_hdr_dl` arriving on the trunk port. -/
def Msg.gtc_hdr_dl (h : gtc_header) (arrivalTime : ℚ) : Msg :=
  { name := "gtc_hdr_dl", body := .gtc h, arrivalTime := arrivalTime }

/-- A `ping` probe arriving on the trunk port. -/
def Msg.pingProbe (p : ping) (arrivalTime : ℚ) : Msg :=
  { name := "ping", body := .png p, arrivalTime := arrivalTime }

/-- The self-message `send_ul_header` firing. -/
def Msg.send_ul_header (arrivalTime : ℚ) : Msg :=
  { name := "send_ul_header", body := .plain, arrivalTime := arrivalTime }

/-- The self-message `send_ul_payload` firing. -/
def Msg.send_ul_payload (arrivalTime : ℚ) : Msg :=
  { name := "send_ul_payload", body := .plain, arrivalTime := arrivalTime }

/-- Every `check_and_cast` the handler would apply to the message succeeds. -/
def Msg.castOk (m : Msg) : Bool :=
  match m.body with
  | .eth _ => decide (m.name ≠ "gtc_hdr_dl")
  | .gtc _ => decide (m.name ≠ "bkg_data")
  | .otherPacket => decide (m.name ≠ "bkg_data") && decide (m.name ≠ "gtc_hdr_dl")
  | .png _ => true
  | .plain => decide (m.name ≠ "ping")

/-- The handler applied to a sequence of events in order; the actions of all
the handler runs are concatenated in order. -/
def run (prm : SimParams) (index : Nat) : ONU → List Event → Except Fault (ONU × List Action)
  | s, [] => .ok (s, [])
  | s, e :: es =>
    match handleMessage prm index e.now e.msg s with
    | .error f => .error f
    | .ok (s1, a1) =>
      match run prm index s1 es with
      | .error f => .error f
      | .ok (s2, a2) => .ok (s2, a1 ++ a2)

/-- Sum of the byte lengths of the packets of a queue. -/
def queueBytes (q : List ethPacket) : ℚ := (q.map fun p => (p.getByteLength : ℚ)).sum

/-- The data packets sent upstream by a list of actions, in order. -/
def sentData : List Action → List ethPacket
  | [] => []
  | .sendEth p :: rest => p :: sentData rest
  | _ :: rest => sentData rest

/-- The upstream GTC headers sent by a list of actions, in order. -/
def sentHeaders : List Action → List gtc_header
  | [] => []
  | .sendGtc h :: rest => h :: sentHeaders rest
  | _ :: rest => sentHeaders rest

/-- The time at which a list of actions re-arms the drain self-message, if it does. -/
def nextDrain : List Action → Option ℚ
  | [] => none
  | .reschedule t :: _ => some t
  | _ :: rest => nextDrain rest

/-- The time at which a list of actions arms a new `send_ul_payload` self-message, if it does. -/
def firstDrain : List Action → Option ℚ
  | [] => none
  | .scheduleNew t name :: rest => if name = "send_ul_payload" then some t else firstDrain rest
  | _ :: rest => firstDrain rest

/-- The `send_ul_payload` fires of one burst with no other event in between:
the first at time `now`, each next one at the time the previous fire
re-armed the self-message, until a fire does not re-arm it. At most `fuel`
fires are made. -/
def drain (prm : SimParams) (index : Nat) : Nat → ℚ → ONU → Except Fault (ONU × List Action)
  | 0, _, _ => .error .fuelExhausted
  | fuel + 1, now, s =>
    match handleMessage prm index now (Msg.send_ul_payload now) s with
    | .error f => .error f
    | .ok (s1, a1) =>
      match nextDrain a1 with
      | none => .ok (s1, a1)
      | some t =>
        match drain prm index fuel t s1 with
        | .error f => .error f
        | .ok (s2, a2) => .ok (s2, a1 ++ a2)

/-- One burst with no other event in between: a `send_ul_header` fire at
time `now`, then the `send_ul_payload` fires it starts. -/
def burst (prm : SimParams) (index : Nat) (fuel : Nat) (now : ℚ) (s : ONU) :
    Except Fault (ONU × List Action) :=
  match handleMessage prm index now (Msg.send_ul_header now) s with
  | .error f => .error f
  | .ok (s1, a1) =>
    match firstDrain a1 with
    | none => .ok (s1, a1)
    | some t =>
      match drain prm index fuel t s1 with
      | .error f => .error f
      | .ok (s2, a2) => .ok (s2, a1 ++ a2)

/-- The packet-drop-free part of the buffer invariant: each pending-byte
counter equals the byte sum of its queue, and queues 1 and 2 are empty. -/
def Coherent (s : ONU) : Prop :=
  s.pending_buffer_TC3 = queueBytes s.queue_TC3 ∧
  s.pending_buffer_TC1 = queueBytes s.queue_TC1 ∧
  s.pending_buffer_TC2 = queueBytes s.queue_TC2 ∧
  s.queue_TC1 = [] ∧ s.queue_TC2 = []

/-- The constants of the end-to-end scenarios: `C = 100·10⁶` bytes, link rate
`1.244·10⁹` bit/s, polling cycle `125 µs`. -/
def scenarioParams : SimParams :=
  { onu_buffer_capacity := 100000000, pon_link_datarate := 1244000000,
    max_polling_cycle := 125 / 1000000 }

/-- A subscriber packet of `n` bytes with contents `tag`, as it leaves a traffic source. -/
def packetOfBytes (tag n : Nat) : ethPacket :=
  { payload := tag, bitLength := 8 * n, onuArrivalTime := 0, onuDepartureTime := 0,
    onuId := 0, tContId := 0 }

/-- An ONU whose queue 3 holds `q` and whose counter 3 holds its byte sum,
with received grant `grant` and remaining grant `remaining`. -/
def onuWith (q : List ethPacket) (grant remaining : ℚ) : ONU :=
  { ONU.init scenarioParams with
      queue_TC3 := q, pending_buffer_TC3 := queueBytes q,
      onu_rx_grant_TC3 := grant, onu_grant_TC3 := remaining }

/-- The downstream header of scenario 1: `rtt = 10 µs`, `start_time_3 = 5 µs`,
grant `1600` bytes, for every ONU index. -/
def scenarioHeader : gtc_header :=
  { gtc_header.fresh with
      olt_onu_rtt := fun _ => 10 / 1000000,
      onu_start_time_TC3 := fun _ => 5 / 1000000,
      onu_grant_TC3 := fun _ => 1600 }

/-- The packet admitted by the handling of event `e` in state `s`, as queued:
a `bkg_data` ethernet packet that passes the admission check
`P1 + P2 + P3 + byteLength ≤ C`, with its three admission stamps. -/
def admittedBy (prm : SimParams) (index : Nat) (e : Event) (s : ONU) : List ethPacket :=
  match e.msg.body with
  | .eth p =>
    if e.msg.name = "bkg_data" ∧
        s.pending_buffer_TC1 + s.pending_buffer_TC2 + s.pending_buffer_TC3 + p.getByteLength
          ≤ prm.onu_buffer_capacity then
      [{ p with onuArrivalTime := e.now, onuId := index, tContId := 3 }]
    else []
  | _ => []

/-- The packets admitted along a run from state `s`, in admission order. -/
def admitted (prm : SimParams) (index : Nat) : ONU → List Event → List ethPacket
  | _, [] => []
  | s, e :: es =>
    match handleMessage prm index e.now e.msg s with
    | .error _ => []
    | .ok (s1, _) => admittedBy prm index e s ++ admitted prm index s1 es

/-- A packet with its departure stamp, the one field written at emission, blanked. -/
def ethPacket.withoutDeparture (p : ethPacket) : ethPacket := { p with onuDepartureTime := 0 }

/-- The aggregate pending byte count `P1 + P2 + P3`. -/
def ONU.pending (s : ONU) : ℚ :=
  s.pending_buffer_TC1 + s.pending_buffer_TC2 + s.pending_buffer_TC3

/-- The events of scenario 1: a 1500-byte packet admitted at `0`, the
downstream header at `100 µs`, the burst start at `345 µs`, and two drain
fires, the first one header-serialization time later. -/
def scenario1Events : List Event :=
  [ { now := 0, msg := Msg.bkg_data (packetOfBytes 1 1500) 0 },
    { now := 100 / 1000000, msg := Msg.gtc_hdr_dl scenarioHeader (100 / 1000000) },
    { now := 345 / 1000000, msg := Msg.send_ul_header (345 / 1000000) },
    { now := 345 / 1000000 + 144 / 1244000000,
      msg := Msg.send_ul_payload (345 / 1000000 + 144 / 1244000000) },
    { now := 345 / 1000000 + 144 / 1244000000 + 12000 / 1244000000,
      msg := Msg.send_ul_payload (345 / 1000000 + 144 / 1244000000 + 12000 / 1244000000) } ]

/-- The queue of scenario 2: four 500-byte packets. -/
def scenario2Queue : List ethPacket :=
  [packetOfBytes 1 500, packetOfBytes 2 500, packetOfBytes 3 500, packetOfBytes 4 500]

/-- The number of packets the drain loop of `send_ul_payload` sends from the
front of a queue `q` when the remaining grant is `g` and the pending-byte
counter is `P`: a packet is sent while the grant and the counter are positive
and the front packet fits in the grant (the three tests of lines 136-138). -/
def drainCount (g P : ℚ) : List ethPacket → Nat
  | [] => 0
  | p :: q =>
    if 0 < g ∧ 0 < P ∧ (p.getByteLength : ℚ) ≤ g then
      drainCount (g - p.getByteLength) (P - p.getByteLength) q + 1
    else 0

/-- The number of `send_ul_payload` fires recorded in a list of actions: every
fire ends either by re-arming the drain event or by deleting it. -/
def drainFires : List Action → Nat
  | [] => 0
  | .reschedule _ :: rest => drainFires rest + 1
  | .deleteMsg :: rest => drainFires rest + 1
  | _ :: rest => drainFires rest

/-- The first three events of scenario 1: the admission, the downstream
header and the burst start, after which the drain guard holds. -/
def scenario1Start : List Event :=
  [ { now := 0, msg := Msg.bkg_data (packetOfBytes 1 1500) 0 },
    { now := 100 / 1000000, msg := Msg.gtc_hdr_dl scenarioHeader (100 / 1000000) },
    { now := 345 / 1000000, msg := Msg.send_ul_header (345 / 1000000) } ]

/-- The downstream header of the scenarios with its class-3 grant set to `g` bytes. -/
def headerWithGrant (g : ℚ) : gtc_header :=
  { scenarioHeader with onu_grant_TC3 := fun _ => g }

/-- A packet of `n` bytes with contents `tag` as queued by ONU 4 at time `0`. -/
def queuedPacket (tag n : Nat) : ethPacket :=
  { packetOfBytes tag n with onuArrivalTime := 0, onuId := 4, tContId := 3 }

/-- The events of scenario 2 up to the burst: four 500-byte packets admitted
at time `0`, then a downstream header granting `1100` bytes at `100 µs`. -/
def scenario2Events : List Event :=
  [ { now := 0, msg := Msg.bkg_data (packetOfBytes 1 500) 0 },
    { now := 0, msg := Msg.bkg_data (packetOfBytes 2 500) 0 },
    { now := 0, msg := Msg.bkg_data (packetOfBytes 3 500) 0 },
    { now := 0, msg := Msg.bkg_data (packetOfBytes 4 500) 0 },
    { now := 100 / 1000000, msg := Msg.gtc_hdr_dl (headerWithGrant 1100) (100 / 1000000) } ]

/-- A queue whose front packet has zero bytes, followed by a 500-byte packet. -/
def zeroByteQueue : List ethPacket := [packetOfBytes 1 0, packetOfBytes 2 500]

/-- The latency samples emitted on the `latency` signal by a list of actions, in order. -/
def latencySamples : List Action → List ℚ
  | [] => []
  | .emitLatency v :: rest => v :: latencySamples rest
  | _ :: rest => latencySamples rest

/-- A pending self-event of the ONU: its scheduled time and its name. -/
structure Timer where
  time : ℚ
  name : String

/-- The ONU together with the self-events the host holds pending for it. -/
structure World where
  onu : ONU
  pending : List Timer

/-- What the host does next to the ONU: it delivers a message from another
module at time `now`, or it fires the `k`-th pending self-event at its
scheduled time. -/
inductive Stimulus where
  | arrive (now : ℚ) (msg : Msg)
  | fire (k : Nat)

/-- The self-events armed by the `scheduleAt` calls of a handler run on a
message named `self`: a new message under its own name, the handled message
under the name it has. -/
def armed (self : String) : List Action → List Timer
  | [] => []
  | .scheduleNew t name :: rest => { time := t, name := name } :: armed self rest
  | .reschedule t :: rest => { time := t, name := self } :: armed self rest
  | _ :: rest => armed self rest

/-- One host step. A fired self-event leaves the pending set and is handled
as a plain message at its scheduled time; the self-events armed by the handler
join the pending set. Firing a self-event that does not exist does nothing. -/
def World.step (prm : SimParams) (index : Nat) (w : World) : Stimulus → Except Fault World
  | .arrive now msg =>
    match handleMessage prm index now msg w.onu with
    | .error f => .error f
    | .ok (s1, a1) => .ok { onu := s1, pending := w.pending ++ armed msg.name a1 }
  | .fire k =>
    match w.pending[k]? with
    | none => .ok w
    | some tm =>
      match handleMessage prm index tm.time
          { name := tm.name, body := .plain, arrivalTime := tm.time } w.onu with
      | .error f => .error f
      | .ok (s1, a1) => .ok { onu := s1, pending := w.pending.eraseIdx k ++ armed tm.name a1 }

/-- A sequence of host steps. -/
def World.run (prm : SimParams) (index : Nat) : World → List Stimulus → Except Fault World
  | w, [] => .ok w
  | w, st :: rest =>
    match World.step prm index w st with
    | .error f => .error f
    | .ok w1 => World.run prm index w1 rest

/-- The world at start-up: the initial ONU and no pending self-event. -/
def World.init (prm : SimParams) : World := { onu := ONU.init prm, pending := [] }

/-- The number of pending self-events named `name`. -/
def World.timerCount (w : World) (name : String) : Nat :=
  (w.pending.filter fun tm => decide (tm.name = name)).length

/-- The stimulus is not a message from another module that bears the name of
one of the two self-events. -/
def Stimulus.external : Stimulus → Bool
  | .arrive _ msg =>
    msg.isPacket || (decide (msg.name ≠ "send_ul_header") && decide (msg.name ≠ "send_ul_payload"))
  | .fire _ => true

/-- The stimulus is the arrival of a downstream GTC header. -/
def Stimulus.isHeaderArrival : Stimulus → Bool
  | .arrive _ msg => msg.isPacket && decide (msg.name = "gtc_hdr_dl")
  | .fire _ => false

/-- Every `check_and_cast` applied to an arriving message succeeds. -/
def Stimulus.castOk : Stimulus → Bool
  | .arrive _ msg => msg.castOk
  | .fire _ => true

/-- The number of downstream GTC headers arriving in a sequence of stimuli. -/
def headerArrivals (stims : List Stimulus) : Nat :=
  (stims.filter Stimulus.isHeaderArrival).length

/-- Along the run, every downstream GTC header arrives while no self-event is pending. -/
def World.spaced (prm : SimParams) (index : Nat) : World → List Stimulus → Bool
  | _, [] => true
  | w, st :: rest =>
    (!st.isHeaderArrival || w.pending.isEmpty) &&
      match World.step prm index w st with
      | .error _ => true
      | .ok w1 => World.spaced prm index w1 rest

/-- Two downstream headers that arrive at `100 µs` and `110 µs`, before the
burst start scheduled by the first one (`345 µs`). -/
def twoHeaders : List Stimulus :=
  [ .arrive (100 / 1000000) (Msg.gtc_hdr_dl scenarioHeader (100 / 1000000)),
    .arrive (110 / 1000000) (Msg.gtc_hdr_dl scenarioHeader (110 / 1000000)) ]

/-- One grant as host steps: a downstream header arrives at `100 µs` while no
self-event is pending, then the burst-start event and the drain event it
leads to fire in turn. -/
def singleGrantStimuli : List Stimulus :=
  [ .arrive (100 / 1000000) (Msg.gtc_hdr_dl scenarioHeader (100 / 1000000)),
    .fire 0, .fire 0 ]

/-! ## The handler on each named message -/

theorem handleMessage_bkg_data (prm : SimParams) (index : Nat) (now ta : ℚ) (p : ethPacket)
    (s : ONU) :
    handleMessage prm index now (Msg.bkg_data p ta) s = .ok (onBkgData prm index now p s) := by
  simp [handleMessage, Msg.bkg_data, Msg.isPacket]

theorem handleMessage_gtc_hdr_dl (prm : SimParams) (index : Nat) (now ta : ℚ) (h : gtc_header)
    (s : ONU) :
    handleMessage prm index now (Msg.gtc_hdr_dl h ta) s = .ok (onGtcHdrDl prm index ta h s) := by
  simp [handleMessage, Msg.gtc_hdr_dl, Msg.isPacket]

theorem handleMessage_ping (prm : SimParams) (index : Nat) (now ta : ℚ) (p : ping) (s : ONU) :
    handleMessage prm index now (Msg.pingProbe p ta) s = .ok (onPing index p s) := by
  simp [handleMessage, Msg.pingProbe, Msg.isPacket]

theorem handleMessage_send_ul_header (prm : SimParams) (index : Nat) (now ta : ℚ) (s : ONU) :
    handleMessage prm index now (Msg.send_ul_header ta) s
      = .ok (onSendUlHeader prm index now s) := by
  simp [handleMessage, Msg.send_ul_header, Msg.isPacket]

theorem handleMessage_send_ul_payload (prm : SimParams) (index : Nat) (now ta : ℚ) (s : ONU) :
    handleMessage prm index now (Msg.send_ul_payload ta) s = onSendUlPayload prm now s := by
  simp [handleMessage, Msg.send_ul_payload, Msg.isPacket]

theorem queueBytes_nil : queueBytes [] = 0 := rfl

theorem queueBytes_cons (p : ethPacket) (q : List ethPacket) :
    queueBytes (p :: q) = p.getByteLength + queueBytes q := by
  simp [queueBytes]

theorem queueBytes_append (q r : List ethPacket) :
    queueBytes (q ++ r) = queueBytes q + queueBytes r := by
  simp [queueBytes]

theorem queueBytes_nonneg (q : List ethPacket) : 0 ≤ queueBytes q := by
  induction q with
  | nil => simp [queueBytes]
  | cons p q ih =>
    rw [queueBytes_cons]
    have : (0 : ℚ) ≤ p.getByteLength := Nat.cast_nonneg _
    linarith

theorem packetOfBytes_getByteLength (tag n : Nat) : (packetOfBytes tag n).getByteLength = n := by
  simp [packetOfBytes, ethPacket.getByteLength]
  omega

/-! ## Single-step behaviour -/

/-- C1. Admission success: a `bkg_data` packet `p` with
`P1 + P2 + P3 + byteLength p ≤ C` (sum taken before admission, equality and
length 0 included) is appended at the tail of Q3 stamped with arrival time
`now`, ONU id `index` and T-CONT 3; P3 grows by `byteLength p`; nothing else
in the state changes and no host call is made. -/
theorem admission_success (prm : SimParams) (index : Nat) (now ta : ℚ) (p : ethPacket) (s : ONU)
    (h : s.pending_buffer_TC1 + s.pending_buffer_TC2 + s.pending_buffer_TC3 + p.getByteLength
          ≤ prm.onu_buffer_capacity) :
    handleMessage prm index now (Msg.bkg_data p ta) s =
      .ok ({ s with
              queue_TC3 := s.queue_TC3 ++
                [{ p with onuArrivalTime := now, onuId := index, tContId := 3 }],
              pending_buffer_TC3 := s.pending_buffer_TC3 + p.getByteLength }, []) := by
  rw [handleMessage_bkg_data]
  simp only [onBkgData, if_pos h]
  rfl

/-- Witness of C1 at the capacity boundary: the buffer holds `99 999 500`
bytes and a 500-byte packet makes the sum equal to `C`. -/
theorem admission_success_witness :
    (onuWith [packetOfBytes 0 99999500] 0 0).pending_buffer_TC1
        + (onuWith [packetOfBytes 0 99999500] 0 0).pending_buffer_TC2
        + (onuWith [packetOfBytes 0 99999500] 0 0).pending_buffer_TC3
        + (packetOfBytes 1 500).getByteLength ≤ scenarioParams.onu_buffer_capacity ∧
    handleMessage scenarioParams 4 7 (Msg.bkg_data (packetOfBytes 1 500) 7)
        (onuWith [packetOfBytes 0 99999500] 0 0) =
      .ok ({ onuWith [packetOfBytes 0 99999500] 0 0 with
              queue_TC3 := (onuWith [packetOfBytes 0 99999500] 0 0).queue_TC3 ++
                [{ packetOfBytes 1 500 with onuArrivalTime := 7, onuId := (4 : Nat), tContId := 3 }],
              pending_buffer_TC3 := (onuWith [packetOfBytes 0 99999500] 0 0).pending_buffer_TC3
                + (packetOfBytes 1 500).getByteLength }, []) :=
  ⟨by norm_num [onuWith, ONU.init, scenarioParams, queueBytes, packetOfBytes,
      ethPacket.getByteLength],
   admission_success scenarioParams 4 7 7 (packetOfBytes 1 500)
     (onuWith [packetOfBytes 0 99999500] 0 0)
     (by norm_num [onuWith, ONU.init, scenarioParams, queueBytes, packetOfBytes,
       ethPacket.getByteLength])⟩

/-- C2. Admission failure is atomic: a `bkg_data` packet `p` with
`P1 + P2 + P3 + byteLength p > C` leaves the whole ONU state unchanged and
makes no host call (nothing sent on the trunk port, no timer scheduled). -/
theorem admission_failure_atomic (prm : SimParams) (index : Nat) (now ta : ℚ) (p : ethPacket)
    (s : ONU)
    (h : prm.onu_buffer_capacity
          < s.pending_buffer_TC1 + s.pending_buffer_TC2 + s.pending_buffer_TC3 + p.getByteLength) :
    handleMessage prm index now (Msg.bkg_data p ta) s = .ok (s, []) := by
  rw [handleMessage_bkg_data]
  simp only [onBkgData, if_neg (not_le.mpr h)]

/-- Witness of C2 one byte over capacity: the buffer holds `99 999 500` bytes
and a 501-byte packet arrives. -/
theorem admission_failure_atomic_witness :
    scenarioParams.onu_buffer_capacity
      < (onuWith [packetOfBytes 0 99999500] 0 0).pending_buffer_TC1
        + (onuWith [packetOfBytes 0 99999500] 0 0).pending_buffer_TC2
        + (onuWith [packetOfBytes 0 99999500] 0 0).pending_buffer_TC3
        + (packetOfBytes 1 501).getByteLength ∧
    handleMessage scenarioParams 4 7 (Msg.bkg_data (packetOfBytes 1 501) 7)
        (onuWith [packetOfBytes 0 99999500] 0 0)
      = .ok (onuWith [packetOfBytes 0 99999500] 0 0, []) :=
  ⟨by norm_num [onuWith, ONU.init, scenarioParams, queueBytes, packetOfBytes,
      ethPacket.getByteLength],
   admission_failure_atomic scenarioParams 4 7 7 (packetOfBytes 1 501)
     (onuWith [packetOfBytes 0 99999500] 0 0)
     (by norm_num [onuWith, ONU.init, scenarioParams, queueBytes, packetOfBytes,
       ethPacket.getByteLength])⟩

/-- C3 fails as stated: in scenario 3 (`P3 = 99 999 500`, `C = 100 000 000`, a
1000-byte packet, `D = 0`) the admission check fails and the handler leaves
the drop counter at `0`, not `1`. -/
theorem drop_count_counterexample :
    scenarioParams.onu_buffer_capacity
      < (onuWith [packetOfBytes 0 99999500] 0 0).pending_buffer_TC1
        + (onuWith [packetOfBytes 0 99999500] 0 0).pending_buffer_TC2
        + (onuWith [packetOfBytes 0 99999500] 0 0).pending_buffer_TC3
        + (packetOfBytes 1 1000).getByteLength ∧
    (onuWith [packetOfBytes 0 99999500] 0 0).pending_buffer_TC3 = 99999500 ∧
    (onuWith [packetOfBytes 0 99999500] 0 0).packet_drop_count = 0 ∧
    ∃ s1 acts,
      handleMessage scenarioParams 4 7 (Msg.bkg_data (packetOfBytes 1 1000) 7)
        (onuWith [packetOfBytes 0 99999500] 0 0) = .ok (s1, acts) ∧
      s1.packet_drop_count = 0 ∧
      s1.packet_drop_count ≠ (onuWith [packetOfBytes 0 99999500] 0 0).packet_drop_count + 1 := by
  refine ⟨?_, ?_, rfl, onuWith [packetOfBytes 0 99999500] 0 0, [], ?_, rfl, ?_⟩
  · norm_num [onuWith, ONU.init, scenarioParams, queueBytes, packetOfBytes,
      ethPacket.getByteLength]
  · norm_num [onuWith, ONU.init, queueBytes, packetOfBytes, ethPacket.getByteLength]
  · rw [handleMessage_bkg_data]
    norm_num [onBkgData, onuWith, ONU.init, scenarioParams, queueBytes, packetOfBytes,
      ethPacket.getByteLength]
  · norm_num [onuWith, ONU.init]

/-- C3 as amended: a `bkg_data` packet whose admission check fails leaves the
packet-drop counter `D` unchanged. -/
theorem drop_count_unchanged (prm : SimParams) (index : Nat) (now ta : ℚ) (p : ethPacket)
    (s : ONU)
    (h : prm.onu_buffer_capacity
          < s.pending_buffer_TC1 + s.pending_buffer_TC2 + s.pending_buffer_TC3 + p.getByteLength) :
    ∃ s1 acts, handleMessage prm index now (Msg.bkg_data p ta) s = .ok (s1, acts) ∧
      s1.packet_drop_count = s.packet_drop_count := by
  refine ⟨s, [], ?_, rfl⟩
  rw [handleMessage_bkg_data]
  simp only [onBkgData, if_neg (not_le.mpr h)]

/-- Witness of amended C3 in scenario 3. -/
theorem drop_count_unchanged_witness :
    scenarioParams.onu_buffer_capacity
      < (onuWith [packetOfBytes 0 99999500] 0 0).pending_buffer_TC1
        + (onuWith [packetOfBytes 0 99999500] 0 0).pending_buffer_TC2
        + (onuWith [packetOfBytes 0 99999500] 0 0).pending_buffer_TC3
        + (packetOfBytes 1 1000).getByteLength ∧
    ∃ s1 acts,
      handleMessage scenarioParams 4 7 (Msg.bkg_data (packetOfBytes 1 1000) 7)
        (onuWith [packetOfBytes 0 99999500] 0 0) = .ok (s1, acts) ∧
      s1.packet_drop_count = (onuWith [packetOfBytes 0 99999500] 0 0).packet_drop_count :=
  ⟨by norm_num [onuWith, ONU.init, scenarioParams, queueBytes, packetOfBytes,
      ethPacket.getByteLength],
   drop_count_unchanged scenarioParams 4 7 7 (packetOfBytes 1 1000)
     (onuWith [packetOfBytes 0 99999500] 0 0)
     (by norm_num [onuWith, ONU.init, scenarioParams, queueBytes, packetOfBytes,
       ethPacket.getByteLength])⟩

/-- C8. Head-of-line preservation: at a `send_ul_payload` fire with remaining
grant `> 0`, `P3 > 0` and a front packet longer than the remaining grant, the
handler sends nothing, leaves the whole state (so Q3, its head and P3)
unchanged, and its only host call deletes the drain event, whatever packets
stand behind the front one. -/
theorem head_of_line_preserved (prm : SimParams) (index : Nat) (now ta : ℚ) (s : ONU)
    (front : ethPacket) (tail : List ethPacket)
    (hq : s.queue_TC3 = front :: tail)
    (hg : 0 < s.onu_grant_TC3) (hp : 0 < s.pending_buffer_TC3)
    (hbig : s.onu_grant_TC3 < front.getByteLength) :
    handleMessage prm index now (Msg.send_ul_payload ta) s = .ok (s, [Action.deleteMsg]) := by
  rw [handleMessage_send_ul_payload]
  unfold onSendUlPayload
  rw [if_pos ⟨hg, hp⟩, hq]
  simp only [if_neg (not_le.mpr hbig)]

/-- Witness of C8: remaining grant `499`, a 500-byte packet at the head (one
byte too long) and a 50-byte packet behind it that would fit. -/
theorem head_of_line_preserved_witness :
    (onuWith [packetOfBytes 0 500, packetOfBytes 1 50] 1100 499).queue_TC3
      = packetOfBytes 0 500 :: [packetOfBytes 1 50] ∧
    0 < (onuWith [packetOfBytes 0 500, packetOfBytes 1 50] 1100 499).onu_grant_TC3 ∧
    0 < (onuWith [packetOfBytes 0 500, packetOfBytes 1 50] 1100 499).pending_buffer_TC3 ∧
    (onuWith [packetOfBytes 0 500, packetOfBytes 1 50] 1100 499).onu_grant_TC3
      < (packetOfBytes 0 500).getByteLength ∧
    ((packetOfBytes 1 50).getByteLength : ℚ)
      ≤ (onuWith [packetOfBytes 0 500, packetOfBytes 1 50] 1100 499).onu_grant_TC3 ∧
    handleMessage scenarioParams 4 7 (Msg.send_ul_payload 7)
        (onuWith [packetOfBytes 0 500, packetOfBytes 1 50] 1100 499)
      = .ok (onuWith [packetOfBytes 0 500, packetOfBytes 1 50] 1100 499, [Action.deleteMsg]) :=
  ⟨rfl,
   by norm_num [onuWith],
   by norm_num [onuWith, queueBytes, packetOfBytes, ethPacket.getByteLength],
   by norm_num [onuWith, packetOfBytes, ethPacket.getByteLength],
   by norm_num [onuWith, packetOfBytes, ethPacket.getByteLength],
   head_of_line_preserved scenarioParams 4 7 7
     (onuWith [packetOfBytes 0 500, packetOfBytes 1 50] 1100 499)
     (packetOfBytes 0 500) [packetOfBytes 1 50] rfl
     (by norm_num [onuWith])
     (by norm_num [onuWith, queueBytes, packetOfBytes, ethPacket.getByteLength])
     (by norm_num [onuWith, packetOfBytes, ethPacket.getByteLength])⟩

/-- C9. Burst-start time: a downstream `gtc_hdr_dl` with arrival time `ta`
stores the header's `rtt`, `start_time_3` and `grant_3` at this ONU's index
as `olt_onu_rtt`, `start_time_TC3` and `onu_rx_grant_TC3`, schedules exactly
one `send_ul_header` self-event at
`ta + 2 * max_polling_cycle + start_time_3 - rtt` and frees the header; with
`ta = 100 µs`, cycle `125 µs`, `start_time_3 = 5 µs`, `rtt = 10 µs` the event
is scheduled at `345 µs`. -/
theorem grant_receiver_schedule :
    (∀ (prm : SimParams) (index : Nat) (now ta : ℚ) (h : gtc_header) (s : ONU),
      handleMessage prm index now (Msg.gtc_hdr_dl h ta) s =
        .ok ({ s with olt_onu_rtt := h.olt_onu_rtt index,
                      start_time_TC3 := h.onu_start_time_TC3 index,
                      onu_rx_grant_TC3 := h.onu_grant_TC3 index },
             [Action.scheduleNew
                (ta + 2 * prm.max_polling_cycle + h.onu_start_time_TC3 index
                  - h.olt_onu_rtt index) "send_ul_header",
              Action.deleteMsg])) ∧
    (∀ (index : Nat) (s : ONU),
      handleMessage scenarioParams index (100 / 1000000)
          (Msg.gtc_hdr_dl scenarioHeader (100 / 1000000)) s =
        .ok ({ s with olt_onu_rtt := 10 / 1000000,
                      start_time_TC3 := 5 / 1000000,
                      onu_rx_grant_TC3 := 1600 },
             [Action.scheduleNew (345 / 1000000) "send_ul_header", Action.deleteMsg])) := by
  constructor
  · intro prm index now ta h s
    rw [handleMessage_gtc_hdr_dl]
    rfl
  · intro index s
    rw [handleMessage_gtc_hdr_dl]
    simp only [onGtcHdrDl, scenarioHeader, scenarioParams]
    norm_num

/-- C10. Burst-start step: for every state and every received grant, a
`send_ul_header` fire sends exactly one upstream GTC header, of byte length
`18 = 3+1+1+5+8`, carrying this ONU's index and `uplink = true`; sets the
remaining grant to `rx_grant_3 - 18` whatever it was before; schedules one
`send_ul_payload` event at `now + (18*8)/PON_LINK_DATARATE`; and leaves Q3, P3
and `rx_grant_3` (every member but `gtc_hdr_sz` and the remaining grant)
unchanged. -/
theorem burst_start_step (prm : SimParams) (index : Nat) (now ta : ℚ) (s : ONU) :
    ∃ hdr : gtc_header,
      hdr.getByteLength = 18 ∧ hdr.getByteLength = 3 + 1 + 1 + 5 + 8 ∧
      hdr.onuID = index ∧ hdr.uplink = true ∧
      handleMessage prm index now (Msg.send_ul_header ta) s =
        .ok ({ s with gtc_hdr_sz := 18, onu_grant_TC3 := s.onu_rx_grant_TC3 - 18 },
             [Action.deleteMsg, Action.sendGtc hdr,
              Action.scheduleNew (now + (18 * 8) / prm.pon_link_datarate) "send_ul_payload"]) := by
  refine ⟨{ gtc_header.fresh.setByteLength (3 + 1 + 1 + 5 + 8) with
              uplink := true, onuID := index }, ?_, ?_, rfl, rfl, ?_⟩
  · simp [gtc_header.getByteLength, gtc_header.setByteLength]
  · simp [gtc_header.getByteLength, gtc_header.setByteLength]
  · rw [handleMessage_send_ul_header]
    simp only [onSendUlHeader, gtc_header.setByteLength]
    norm_num


theorem handleMessage_cases (prm : SimParams) (index : Nat) (now : ℚ) (msg : Msg) (s : ONU) :
    (∃ p, msg.body = .eth p ∧ msg.name = "bkg_data" ∧
        handleMessage prm index now msg s = .ok (onBkgData prm index now p s)) ∨
    (∃ h, msg.body = .gtc h ∧ msg.name = "gtc_hdr_dl" ∧
        handleMessage prm index now msg s = .ok (onGtcHdrDl prm index msg.arrivalTime h s)) ∨
    (∃ p, msg.body = .png p ∧ msg.name = "ping" ∧
        handleMessage prm index now msg s = .ok (onPing index p s)) ∨
    (msg.isPacket = false ∧ msg.name = "send_ul_header" ∧
        handleMessage prm index now msg s = .ok (onSendUlHeader prm index now s)) ∨
    (msg.isPacket = false ∧ msg.name = "send_ul_payload" ∧
        handleMessage prm index now msg s = onSendUlPayload prm now s) ∨
    (handleMessage prm index now msg s = .ok (s, []) ∧
        ¬ (msg.isPacket = true ∧ msg.name = "bkg_data")) ∨
    (handleMessage prm index now msg s = .error .castFailure ∧ msg.castOk = false) := by
  obtain ⟨name, body, ta⟩ := msg
  cases body <;> by_cases h1 : name = "bkg_data" <;> by_cases h2 : name = "gtc_hdr_dl" <;>
    by_cases h3 : name = "ping" <;> by_cases h4 : name = "send_ul_header" <;>
    by_cases h5 : name = "send_ul_payload" <;>
    simp_all [handleMessage, Msg.isPacket, Msg.castOk]


theorem onSendUlPayload_cases (prm : SimParams) (now : ℚ) (s : ONU)
    (hc : s.pending_buffer_TC3 = queueBytes s.queue_TC3) :
    onSendUlPayload prm now s = .ok (s, [Action.deleteMsg]) ∨
    ∃ front tail, s.queue_TC3 = front :: tail ∧ 0 < s.onu_grant_TC3 ∧
      (front.getByteLength : ℚ) ≤ s.onu_grant_TC3 ∧
      onSendUlPayload prm now s =
        .ok ({ s with queue_TC3 := tail,
                      onu_grant_TC3 := s.onu_grant_TC3 - front.getByteLength,
                      pending_buffer_TC3 := s.pending_buffer_TC3 - front.getByteLength },
             [Action.sendEth { front with onuDepartureTime := now },
              Action.emitLatency (now - front.onuArrivalTime),
              Action.reschedule (now + front.bitLength / prm.pon_link_datarate)]) := by
  unfold onSendUlPayload
  by_cases hg : 0 < s.onu_grant_TC3 ∧ 0 < s.pending_buffer_TC3
  · rw [if_pos hg]
    cases hq : s.queue_TC3 with
    | nil =>
      rw [hq, queueBytes_nil] at hc
      exact absurd hg.2 (by rw [hc]; exact lt_irrefl 0)
    | cons front tail =>
      by_cases hf : (front.getByteLength : ℚ) ≤ s.onu_grant_TC3
      · right
        exact ⟨front, tail, rfl, hg.1, hf, by simp only [if_pos hf]⟩
      · left
        simp only [if_neg hf]
  · left
    rw [if_neg hg]

theorem admittedBy_eq_nil (prm : SimParams) (index : Nat) (now : ℚ) (msg : Msg) (s : ONU)
    (h : ¬ (msg.isPacket = true ∧ msg.name = "bkg_data")) :
    admittedBy prm index { now := now, msg := msg } s = [] := by
  obtain ⟨name, body, ta⟩ := msg
  cases body <;> simp_all [admittedBy, Msg.isPacket]

theorem admittedBy_eth (prm : SimParams) (index : Nat) (now : ℚ) (msg : Msg) (s : ONU)
    (p : ethPacket) (hb : msg.body = .eth p) (hn : msg.name = "bkg_data") :
    admittedBy prm index { now := now, msg := msg } s =
      if s.pending_buffer_TC1 + s.pending_buffer_TC2 + s.pending_buffer_TC3 + p.getByteLength
          ≤ prm.onu_buffer_capacity then
        [{ p with onuArrivalTime := now, onuId := index, tContId := 3 }]
      else [] := by
  simp [admittedBy, hb, hn]

theorem step_summary (prm : SimParams) (index : Nat) (now : ℚ) (msg : Msg) (s : ONU)
    (hc : Coherent s) :
    (handleMessage prm index now msg s = .error .castFailure ∧ msg.castOk = false) ∨
    ∃ s1 a1 popped, handleMessage prm index now msg s = .ok (s1, a1) ∧ Coherent s1 ∧
      s.queue_TC3 ++ admittedBy prm index { now := now, msg := msg } s = popped ++ s1.queue_TC3 ∧
      sentData a1 = popped.map (fun p => { p with onuDepartureTime := now }) ∧
      (s.pending ≤ prm.onu_buffer_capacity → s1.pending ≤ prm.onu_buffer_capacity) := by
  obtain ⟨h3, h1, h2, hq1, hq2⟩ := hc
  rcases handleMessage_cases prm index now msg s with
    ⟨p, hb, hn, h⟩ | ⟨g, hb, hn, h⟩ | ⟨p, hb, hn, h⟩ | ⟨hp, hn, h⟩ | ⟨hp, hn, h⟩ | ⟨h, hp⟩ | h
  · right
    rw [admittedBy_eth prm index now msg s p hb hn, h]
    unfold onBkgData
    by_cases hk : s.pending_buffer_TC1 + s.pending_buffer_TC2 + s.pending_buffer_TC3
        + p.getByteLength ≤ prm.onu_buffer_capacity
    · simp only [if_pos hk]
      refine ⟨_, _, [], rfl, ⟨?_, h1, h2, hq1, hq2⟩, rfl, rfl, fun _ => ?_⟩
      · show s.pending_buffer_TC3 + _ = queueBytes (s.queue_TC3 ++ [_])
        rw [queueBytes_append, queueBytes_cons, queueBytes_nil, h3]
        simp [ethPacket.getByteLength]
      · show s.pending_buffer_TC1 + s.pending_buffer_TC2 + (s.pending_buffer_TC3 + _) ≤ _
        have : ({ p with onuArrivalTime := now, onuId := (index : Int), tContId := 3 } :
            ethPacket).getByteLength = p.getByteLength := rfl
        rw [this]
        linarith
    · simp only [if_neg hk]
      exact ⟨_, _, [], rfl, ⟨h3, h1, h2, hq1, hq2⟩, by simp, rfl, fun hle => hle⟩
  · right
    have hnb : ¬ (msg.isPacket = true ∧ msg.name = "bkg_data") := by
      rw [hn]; simp
    rw [admittedBy_eq_nil prm index now msg s hnb, h]
    exact ⟨_, _, [], rfl, ⟨h3, h1, h2, hq1, hq2⟩, by simp [onGtcHdrDl], rfl, fun hle => hle⟩
  · right
    have hnb : ¬ (msg.isPacket = true ∧ msg.name = "bkg_data") := by
      rw [hn]; simp
    rw [admittedBy_eq_nil prm index now msg s hnb, h]
    exact ⟨_, _, [], rfl, ⟨h3, h1, h2, hq1, hq2⟩, by simp [onPing], rfl, fun hle => hle⟩
  · right
    have hnb : ¬ (msg.isPacket = true ∧ msg.name = "bkg_data") := by
      rw [hn]; simp
    rw [admittedBy_eq_nil prm index now msg s hnb, h]
    exact ⟨_, _, [], rfl, ⟨h3, h1, h2, hq1, hq2⟩, by simp [onSendUlHeader], rfl, fun hle => hle⟩
  · right
    have hnb : ¬ (msg.isPacket = true ∧ msg.name = "bkg_data") := by
      rw [hn]; simp
    rw [admittedBy_eq_nil prm index now msg s hnb, h]
    rcases onSendUlPayload_cases prm now s h3 with hd | ⟨front, tail, hq, hg, hf, hd⟩
    · rw [hd]
      exact ⟨_, _, [], rfl, ⟨h3, h1, h2, hq1, hq2⟩, by simp, rfl, fun hle => hle⟩
    · rw [hd]
      refine ⟨_, _, [front], rfl, ⟨?_, h1, h2, hq1, hq2⟩, by simp [hq], rfl, fun hle => ?_⟩
      · show s.pending_buffer_TC3 - _ = queueBytes tail
        rw [h3, hq, queueBytes_cons]
        ring
      · have hnn : (0 : ℚ) ≤ front.getByteLength := Nat.cast_nonneg _
        simp only [ONU.pending] at hle ⊢
        linarith
  · right
    rw [admittedBy_eq_nil prm index now msg s hp, h]
    exact ⟨_, _, [], rfl, ⟨h3, h1, h2, hq1, hq2⟩, by simp, rfl, fun hle => hle⟩
  · left
    exact h

theorem sentData_append (a b : List Action) : sentData (a ++ b) = sentData a ++ sentData b := by
  induction a with
  | nil => rfl
  | cons x a ih => cases x <;> simp [sentData, ih]

theorem map_withoutDeparture_stamp (now : ℚ) (q : List ethPacket) :
    (q.map fun p => ({ p with onuDepartureTime := now } : ethPacket)).map
        ethPacket.withoutDeparture
      = q.map ethPacket.withoutDeparture := by
  induction q with
  | nil => rfl
  | cons p q ih => simp [ethPacket.withoutDeparture]

theorem coherent_init (prm : SimParams) : Coherent (ONU.init prm) := by
  simp [Coherent, ONU.init, queueBytes]

theorem run_summary (prm : SimParams) (index : Nat) :
    ∀ (evs : List Event) (s : ONU), Coherent s →
      (run prm index s evs = .error .castFailure ∧ ∃ e ∈ evs, e.msg.castOk = false) ∨
      ∃ s1 acts done, run prm index s evs = .ok (s1, acts) ∧ Coherent s1 ∧
        s.queue_TC3 ++ admitted prm index s evs = done ++ s1.queue_TC3 ∧
        (sentData acts).map ethPacket.withoutDeparture = done.map ethPacket.withoutDeparture ∧
        (s.pending ≤ prm.onu_buffer_capacity → s1.pending ≤ prm.onu_buffer_capacity) := by
  intro evs
  induction evs with
  | nil =>
    intro s hc
    right
    exact ⟨s, [], [], rfl, hc, by simp [admitted], rfl, fun h => h⟩
  | cons e es ih =>
    intro s hc
    rcases step_summary prm index e.now e.msg s hc with ⟨herr, hbad⟩ |
      ⟨s1, a1, popped, hstep, hc1, hq, hsent, hcap⟩
    · left
      exact ⟨by simp [run, herr], e, by simp, hbad⟩
    · rcases ih s1 hc1 with ⟨herr, e1, he1, hbad⟩ | ⟨s2, a2, done, hrun, hc2, hq2, hsent2, hcap2⟩
      · left
        exact ⟨by simp [run, hstep, herr], e1, by simp [he1], hbad⟩
      · right
        refine ⟨s2, a1 ++ a2, popped ++ done, by simp [run, hstep, hrun], hc2, ?_, ?_,
          fun h => hcap2 (hcap h)⟩
        · have hadm : admitted prm index s (e :: es)
              = admittedBy prm index e s ++ admitted prm index s1 es := by
            simp [admitted, hstep]
          have hq1 : s.queue_TC3 ++ admittedBy prm index e s = popped ++ s1.queue_TC3 := hq
          rw [hadm, ← List.append_assoc, hq1, List.append_assoc, hq2, List.append_assoc]
        · rw [sentData_append, List.map_append, List.map_append, hsent, hsent2,
            map_withoutDeparture_stamp]

/-! ## Invariants over event traces -/

/-- C4. Capacity invariant: from the initial state (empty queues, all
counters 0) with `C ≥ 0`, every sequence of events, of any names and classes,
either ends in a state with `P1 + P2 + P3 ≤ C`, or is aborted by a failed
`check_and_cast` on a message of the wrong class. -/
theorem capacity_invariant (prm : SimParams) (index : Nat) (hC : 0 ≤ prm.onu_buffer_capacity)
    (evs : List Event) :
    (∃ s acts, run prm index (ONU.init prm) evs = .ok (s, acts) ∧
      s.pending_buffer_TC1 + s.pending_buffer_TC2 + s.pending_buffer_TC3
        ≤ prm.onu_buffer_capacity) ∨
    (run prm index (ONU.init prm) evs = .error .castFailure ∧
      ∃ e ∈ evs, e.msg.castOk = false) := by
  rcases run_summary prm index evs (ONU.init prm) (coherent_init prm) with
    h | ⟨s, acts, _, hrun, _, _, _, hcap⟩
  · exact Or.inr h
  · exact Or.inl ⟨s, acts, hrun, hcap (by simpa [ONU.pending, ONU.init] using hC)⟩

/-- Witness of C4 on the events of scenario 1, none of which fails a cast. -/
theorem capacity_invariant_witness :
    0 ≤ scenarioParams.onu_buffer_capacity ∧
    ∃ s acts, run scenarioParams 4 (ONU.init scenarioParams) scenario1Events = .ok (s, acts) ∧
      s.pending_buffer_TC1 + s.pending_buffer_TC2 + s.pending_buffer_TC3
        ≤ scenarioParams.onu_buffer_capacity :=
  ⟨by norm_num [scenarioParams],
   (capacity_invariant scenarioParams 4 (by norm_num [scenarioParams])
      scenario1Events).resolve_right
     (by simp [scenario1Events, Msg.castOk, Msg.bkg_data, Msg.gtc_hdr_dl, Msg.send_ul_header,
           Msg.send_ul_payload])⟩

/-- C5. Counter-mirrors-queue invariant: from the initial state, every
sequence of events either ends in a state where P3 is the byte sum of Q3, P1
and P2 are the byte sums of Q1 and Q2, and Q1 and Q2 are empty, or is aborted
by a failed `check_and_cast` on a message of the wrong class. -/
theorem counters_mirror_queues (prm : SimParams) (index : Nat) (evs : List Event) :
    (∃ s acts, run prm index (ONU.init prm) evs = .ok (s, acts) ∧
      s.pending_buffer_TC3 = queueBytes s.queue_TC3 ∧
      s.pending_buffer_TC1 = queueBytes s.queue_TC1 ∧
      s.pending_buffer_TC2 = queueBytes s.queue_TC2 ∧
      s.queue_TC1 = [] ∧ s.queue_TC2 = []) ∨
    (run prm index (ONU.init prm) evs = .error .castFailure ∧
      ∃ e ∈ evs, e.msg.castOk = false) := by
  rcases run_summary prm index evs (ONU.init prm) (coherent_init prm) with
    h | ⟨s, acts, _, hrun, hc, _, _, _⟩
  · exact Or.inr h
  · exact Or.inl ⟨s, acts, hrun, hc⟩

/-- C7. FIFO and conservation: from the initial state, every sequence of
events that is not aborted by a failed cast ends with the admitted packets,
in admission order, split as `done ++ Q3`: Q3 is the current queue front to
back, and `done` is the sequence of data packets sent upstream so far, each
sent packet differing from the admitted one in its departure stamp only. -/
theorem fifo_conservation (prm : SimParams) (index : Nat) (evs : List Event) :
    (∃ s acts done, run prm index (ONU.init prm) evs = .ok (s, acts) ∧
      admitted prm index (ONU.init prm) evs = done ++ s.queue_TC3 ∧
      (sentData acts).map ethPacket.withoutDeparture = done.map ethPacket.withoutDeparture ∧
      (sentData acts ++ s.queue_TC3).map ethPacket.withoutDeparture
        = (admitted prm index (ONU.init prm) evs).map ethPacket.withoutDeparture) ∨
    (run prm index (ONU.init prm) evs = .error .castFailure ∧
      ∃ e ∈ evs, e.msg.castOk = false) := by
  rcases run_summary prm index evs (ONU.init prm) (coherent_init prm) with
    h | ⟨s, acts, done, hrun, _, hq, hsent, _⟩
  · exact Or.inr h
  · have hq1 : admitted prm index (ONU.init prm) evs = done ++ s.queue_TC3 := by
      simpa [ONU.init] using hq
    exact Or.inl ⟨s, acts, done, hrun, hq1, hsent, by
      rw [hq1, List.map_append, List.map_append, hsent]⟩


/-! ## One burst -/

theorem queueBytes_stamp (now : ℚ) (q : List ethPacket) :
    queueBytes (q.map fun p => ({ p with onuDepartureTime := now } : ethPacket))
      = queueBytes q := by
  induction q with
  | nil => rfl
  | cons p q ih =>
    rw [List.map_cons, queueBytes_cons, queueBytes_cons, ih]
    rfl

theorem drain_summary (prm : SimParams) (index : Nat) :
    ∀ (fuel : Nat) (now : ℚ) (s : ONU),
      s.pending_buffer_TC3 = queueBytes s.queue_TC3 → s.queue_TC3.length < fuel →
      ∃ s1 acts, drain prm index fuel now s = .ok (s1, acts) ∧
        s1.pending_buffer_TC3 = queueBytes s1.queue_TC3 ∧
        s1.onu_rx_grant_TC3 = s.onu_rx_grant_TC3 ∧
        acts.getLast? = some Action.deleteMsg ∧
        sentHeaders acts = [] ∧
        queueBytes (sentData acts) = s.onu_grant_TC3 - s1.onu_grant_TC3 ∧
        (sentData acts = [] ∨ 0 ≤ s1.onu_grant_TC3) ∧
        (s.onu_grant_TC3 ≤ 0 → s1 = s ∧ acts = [Action.deleteMsg]) := by
  intro fuel
  induction fuel with
  | zero => intro now s _ hlen; exact absurd hlen (Nat.not_lt_zero _)
  | succ fuel ih =>
    intro now s hc hlen
    rcases onSendUlPayload_cases prm now s hc with hd | ⟨front, tail, hq, hg, hf, hd⟩
    · refine ⟨s, [Action.deleteMsg], ?_, hc, rfl, rfl, rfl, ?_, Or.inl rfl, fun _ => ⟨rfl, rfl⟩⟩
      · simp [drain, handleMessage_send_ul_payload, hd, nextDrain]
      · simp [sentData, queueBytes]
    · have hc1 : s.pending_buffer_TC3 - (front.getByteLength : ℚ) = queueBytes tail := by
        rw [hc, hq, queueBytes_cons]; ring
      have hlen1 : tail.length < fuel := by
        rw [hq] at hlen
        simpa using hlen
      obtain ⟨s2, a2, hrun, hc2, hrx, hlast, hhdr, hbytes, hnn, _⟩ :=
        ih (now + front.bitLength / prm.pon_link_datarate)
          { s with queue_TC3 := tail,
                   onu_grant_TC3 := s.onu_grant_TC3 - front.getByteLength,
                   pending_buffer_TC3 := s.pending_buffer_TC3 - front.getByteLength }
          hc1 hlen1
      refine ⟨s2, [Action.sendEth { front with onuDepartureTime := now },
          Action.emitLatency (now - front.onuArrivalTime),
          Action.reschedule (now + front.bitLength / prm.pon_link_datarate)] ++ a2,
        ?_, hc2, hrx, ?_, ?_, ?_, Or.inr ?_, fun hle => absurd hg (not_lt.mpr hle)⟩
      · simp only [drain, handleMessage_send_ul_payload, hd, nextDrain, hrun]
      · have hne : a2 ≠ [] := by
          intro h0
          rw [h0] at hlast
          simp at hlast
        rw [List.getLast?_append_of_ne_nil _ hne, hlast]
      · simp [sentHeaders, hhdr]
      · have hfb : ({ front with onuDepartureTime := now } : ethPacket).getByteLength
            = front.getByteLength := rfl
        have hb : queueBytes (sentData a2)
            = (s.onu_grant_TC3 - front.getByteLength) - s2.onu_grant_TC3 := hbytes
        have hsd : sentData ([Action.sendEth { front with onuDepartureTime := now },
            Action.emitLatency (now - front.onuArrivalTime),
            Action.reschedule (now + front.bitLength / prm.pon_link_datarate)] ++ a2)
            = { front with onuDepartureTime := now } :: sentData a2 := rfl
        rw [hsd, queueBytes_cons, hfb, hb]
        ring
      · have hb : queueBytes (sentData a2)
            = (s.onu_grant_TC3 - front.getByteLength) - s2.onu_grant_TC3 := hbytes
        rcases hnn with h0 | h0
        · rw [h0, queueBytes_nil] at hb
          linarith
        · exact h0

theorem burst_unfold (prm : SimParams) (index fuel : Nat) (now : ℚ) (s : ONU) :
    burst prm index fuel now s =
      match drain prm index fuel (now + ((8 * (3 + 1 + 1 + 5 + 8) : Nat) : ℚ) / prm.pon_link_datarate)
          (onSendUlHeader prm index now s).1 with
      | .error f => .error f
      | .ok (s2, a2) => .ok (s2, (onSendUlHeader prm index now s).2 ++ a2) := by
  simp only [burst, handleMessage_send_ul_header, onSendUlHeader, firstDrain, if_true,
    gtc_header.setByteLength]

theorem drain_of_nonpos (prm : SimParams) (index fuel : Nat) (now : ℚ) (s : ONU)
    (h : s.onu_grant_TC3 ≤ 0) :
    drain prm index (fuel + 1) now s = .ok (s, [Action.deleteMsg]) := by
  have hg : ¬ (0 < s.onu_grant_TC3 ∧ 0 < s.pending_buffer_TC3) := fun hh =>
    absurd hh.1 (not_lt.mpr h)
  simp only [drain, handleMessage_send_ul_payload, onSendUlPayload, if_neg hg, nextDrain]

theorem onSendUlPayload_trichotomy (prm : SimParams) (now : ℚ) (s : ONU) :
    (onSendUlPayload prm now s = .error .nullFront ∧ s.queue_TC3 = [] ∧
        0 < s.onu_grant_TC3 ∧ 0 < s.pending_buffer_TC3) ∨
    onSendUlPayload prm now s = .ok (s, [Action.deleteMsg]) ∨
    ∃ front tail, s.queue_TC3 = front :: tail ∧ 0 < s.onu_grant_TC3 ∧
      (front.getByteLength : ℚ) ≤ s.onu_grant_TC3 ∧
      onSendUlPayload prm now s =
        .ok ({ s with queue_TC3 := tail,
                      onu_grant_TC3 := s.onu_grant_TC3 - front.getByteLength,
                      pending_buffer_TC3 := s.pending_buffer_TC3 - front.getByteLength },
             [Action.sendEth { front with onuDepartureTime := now },
              Action.emitLatency (now - front.onuArrivalTime),
              Action.reschedule (now + front.bitLength / prm.pon_link_datarate)]) := by
  unfold onSendUlPayload
  by_cases hg : 0 < s.onu_grant_TC3 ∧ 0 < s.pending_buffer_TC3
  · rw [if_pos hg]
    cases hq : s.queue_TC3 with
    | nil => exact Or.inl ⟨rfl, rfl, hg.1, hg.2⟩
    | cons front tail =>
      by_cases hf : (front.getByteLength : ℚ) ≤ s.onu_grant_TC3
      · exact Or.inr (Or.inr ⟨front, tail, rfl, hg.1, hf, by simp only [if_pos hf]⟩)
      · exact Or.inr (Or.inl (by simp only [if_neg hf]))
  · exact Or.inr (Or.inl (by rw [if_neg hg]))

theorem drain_budget (prm : SimParams) (index : Nat) :
    ∀ (fuel : Nat) (now : ℚ) (s s1 : ONU) (acts : List Action),
      drain prm index fuel now s = .ok (s1, acts) →
        acts.getLast? = some Action.deleteMsg ∧
        queueBytes (sentData acts) = s.onu_grant_TC3 - s1.onu_grant_TC3 ∧
        (sentData acts = [] ∨ 0 ≤ s1.onu_grant_TC3) ∧
        (s.onu_grant_TC3 ≤ 0 → sentData acts = []) := by
  intro fuel
  induction fuel with
  | zero =>
    intro now s s1 acts h
    simp [drain] at h
  | succ fuel ih =>
    intro now s s1 acts h
    rcases onSendUlPayload_trichotomy prm now s with ⟨hd, _⟩ | hd | ⟨front, tail, hq, hg, hf, hd⟩
    · simp [drain, handleMessage_send_ul_payload, hd] at h
    · simp only [drain, handleMessage_send_ul_payload, hd, nextDrain, Except.ok.injEq,
        Prod.mk.injEq] at h
      obtain ⟨rfl, rfl⟩ := h
      exact ⟨rfl, by simp [sentData, queueBytes], Or.inl rfl, fun _ => rfl⟩
    · simp only [drain, handleMessage_send_ul_payload, hd, nextDrain] at h
      cases hrun : drain prm index fuel (now + front.bitLength / prm.pon_link_datarate)
          { s with queue_TC3 := tail,
                   onu_grant_TC3 := s.onu_grant_TC3 - front.getByteLength,
                   pending_buffer_TC3 := s.pending_buffer_TC3 - front.getByteLength } with
      | error f => rw [hrun] at h; simp at h
      | ok r =>
        obtain ⟨s2, a2⟩ := r
        rw [hrun] at h
        simp only [Except.ok.injEq, Prod.mk.injEq] at h
        obtain ⟨rfl, rfl⟩ := h
        obtain ⟨hlast, hbytes, hnn, _⟩ := ih _ _ _ _ hrun
        have hb : queueBytes (sentData a2)
            = (s.onu_grant_TC3 - front.getByteLength) - s2.onu_grant_TC3 := hbytes
        have hne : a2 ≠ [] := by
          intro h0
          rw [h0] at hlast
          simp at hlast
        have hfb : ({ front with onuDepartureTime := now } : ethPacket).getByteLength
            = front.getByteLength := rfl
        have hsd : sentData ([Action.sendEth { front with onuDepartureTime := now },
            Action.emitLatency (now - front.onuArrivalTime),
            Action.reschedule (now + front.bitLength / prm.pon_link_datarate)] ++ a2)
            = { front with onuDepartureTime := now } :: sentData a2 := rfl
        refine ⟨?_, ?_, Or.inr ?_, fun hle => absurd hg (not_lt.mpr hle)⟩
        · rw [List.getLast?_append_of_ne_nil _ hne, hlast]
        · rw [hsd, queueBytes_cons, hfb, hb]
          ring
        · rcases hnn with h0 | h0
          · rw [h0, queueBytes_nil] at hb
            linarith
          · exact h0

/-- C6 fails as stated: with `rx_grant_3 = 0` (the zero-grant scenario) and a
500-byte packet queued, the burst sends the header and no data packet, so the
emitted byte sum is `0`, which is not `≤ rx_grant_3 - 18 = -18`. -/
theorem grant_budget_counterexample :
    ∃ s1 acts, burst scenarioParams 4 2 0 (onuWith [packetOfBytes 1 500] 0 0) = .ok (s1, acts) ∧
      sentData acts = [] ∧
      queueBytes (sentData acts) = 0 ∧
      ¬ (queueBytes (sentData acts)
          ≤ (onuWith [packetOfBytes 1 500] 0 0).onu_rx_grant_TC3 - 18) := by
  refine ⟨(onSendUlHeader scenarioParams 4 0 (onuWith [packetOfBytes 1 500] 0 0)).1,
    (onSendUlHeader scenarioParams 4 0 (onuWith [packetOfBytes 1 500] 0 0)).2
      ++ [Action.deleteMsg], ?_, rfl, ?_, ?_⟩
  · rw [burst_unfold, drain_of_nonpos]
    norm_num [onSendUlHeader, onuWith]
  · simp [onSendUlHeader, sentData, queueBytes]
  · norm_num [onSendUlHeader, sentData, queueBytes, onuWith]

/-- C6 as amended: for every state and every `rx_grant_3`, a burst (one
`send_ul_header` fire, then its `send_ul_payload` fires with no other event in
between, until a fire deletes the drain event instead of re-arming it) sends
data packets whose byte sum is `≤ max (rx_grant_3 - 18) 0`: at most
`rx_grant_3 - 18` when `rx_grant_3 ≥ 18`, and no data packet at all when
`rx_grant_3 ≤ 18`. Started in a state where P3 is the byte sum of Q3, the
burst does run to the deletion of the drain event, within
`length Q3 + 1` drain fires. -/
theorem burst_budget (prm : SimParams) (index : Nat) (now : ℚ) (s : ONU) :
    (∀ (fuel : Nat) (s1 : ONU) (acts : List Action),
      burst prm index fuel now s = .ok (s1, acts) →
        acts.getLast? = some Action.deleteMsg ∧
        queueBytes (sentData acts) ≤ max (s.onu_rx_grant_TC3 - 18) 0 ∧
        (18 ≤ s.onu_rx_grant_TC3 → queueBytes (sentData acts) ≤ s.onu_rx_grant_TC3 - 18) ∧
        (s.onu_rx_grant_TC3 ≤ 18 → sentData acts = [])) ∧
    (s.pending_buffer_TC3 = queueBytes s.queue_TC3 →
      ∃ s1 acts, burst prm index (s.queue_TC3.length + 1) now s = .ok (s1, acts)) := by
  have hg : (3 + 1 + 1 + 5 + 8 : ℚ) = 18 := by norm_num
  have hs1 : sentData (onSendUlHeader prm index now s).2 = [] := rfl
  constructor
  · intro fuel s1 acts h
    rw [burst_unfold] at h
    cases hrun : drain prm index fuel
        (now + ((8 * (3 + 1 + 1 + 5 + 8) : Nat) : ℚ) / prm.pon_link_datarate)
        (onSendUlHeader prm index now s).1 with
    | error f => rw [hrun] at h; simp at h
    | ok r =>
      obtain ⟨s2, a2⟩ := r
      rw [hrun] at h
      simp only [Except.ok.injEq, Prod.mk.injEq] at h
      obtain ⟨rfl, rfl⟩ := h
      obtain ⟨hlast, hbytes, hnn, hzero⟩ := drain_budget prm index _ _ _ _ _ hrun
      have hb : queueBytes (sentData a2)
          = (s.onu_rx_grant_TC3 - (3 + 1 + 1 + 5 + 8)) - s2.onu_grant_TC3 := hbytes
      have hz : s.onu_rx_grant_TC3 - (3 + 1 + 1 + 5 + 8) ≤ 0 → sentData a2 = [] := hzero
      rw [hg] at hb hz
      have hne : a2 ≠ [] := by
        intro h0
        rw [h0] at hlast
        simp at hlast
      have hsent : sentData ((onSendUlHeader prm index now s).2 ++ a2) = sentData a2 := by
        rw [sentData_append, hs1, List.nil_append]
      rw [hsent]
      refine ⟨?_, ?_, fun h18 => ?_, fun h18 => hz (by linarith)⟩
      · rw [List.getLast?_append_of_ne_nil _ hne, hlast]
      · rcases hnn with h0 | h0
        · rw [h0, queueBytes_nil]; exact le_max_right _ _
        · exact le_trans (by linarith) (le_max_left _ _)
      · rcases hnn with h0 | h0
        · rw [h0, queueBytes_nil]; linarith
        · linarith
  · intro hc
    obtain ⟨s2, a2, hrun, _⟩ :=
      drain_summary prm index (s.queue_TC3.length + 1)
        (now + ((8 * (3 + 1 + 1 + 5 + 8) : Nat) : ℚ) / prm.pon_link_datarate)
        (onSendUlHeader prm index now s).1 hc (Nat.lt_succ_self _)
    exact ⟨s2, (onSendUlHeader prm index now s).2 ++ a2, by rw [burst_unfold, hrun]⟩

/-- Witness of amended C6 in scenario 2: four 500-byte packets queued and
`rx_grant_3 = 1100`; the burst runs to the deletion of the drain event and
sends at most `1082` bytes of data. -/
theorem burst_budget_witness :
    (onuWith scenario2Queue 1100 0).pending_buffer_TC3
      = queueBytes (onuWith scenario2Queue 1100 0).queue_TC3 ∧
    18 ≤ (onuWith scenario2Queue 1100 0).onu_rx_grant_TC3 ∧
    ∃ s1 acts,
      burst scenarioParams 4 ((onuWith scenario2Queue 1100 0).queue_TC3.length + 1) 0
        (onuWith scenario2Queue 1100 0) = .ok (s1, acts) ∧
      acts.getLast? = some Action.deleteMsg ∧
      queueBytes (sentData acts) ≤ (onuWith scenario2Queue 1100 0).onu_rx_grant_TC3 - 18 :=
  ⟨rfl, by norm_num [onuWith],
   let ⟨s1, acts, h⟩ :=
     (burst_budget scenarioParams 4 0 (onuWith scenario2Queue 1100 0)).2 rfl
   ⟨s1, acts, h,
    ((burst_budget scenarioParams 4 0 (onuWith scenario2Queue 1100 0)).1 _ s1 acts h).1,
    ((burst_budget scenarioParams 4 0 (onuWith scenario2Queue 1100 0)).1 _ s1 acts h).2.2.1
      (by norm_num [onuWith])⟩⟩

/-! ## Insufficient grant and ping echo -/

/-- C11. Insufficient grant: in every state with `rx_grant_3 ≤ 18` (0 and
values below 18 included) and for every content of Q3, the `send_ul_header`
fire still sends the 18-byte upstream header and arms the drain event,
leaving Q3 and P3 unchanged and the remaining grant `≤ 0`; the first
`send_ul_payload` fire, at whatever time, sends nothing, leaves the state
unchanged and only deletes the drain event; so the whole burst consists of
the header and carries no data packet. -/
theorem insufficient_grant_no_payload (prm : SimParams) (index : Nat) (now ta : ℚ) (s : ONU)
    (h : s.onu_rx_grant_TC3 ≤ 18) :
    ∃ (hdr : gtc_header) (s1 : ONU),
      hdr.getByteLength = 18 ∧ hdr.onuID = index ∧ hdr.uplink = true ∧
      handleMessage prm index now (Msg.send_ul_header ta) s =
        .ok (s1, [Action.deleteMsg, Action.sendGtc hdr,
                  Action.scheduleNew (now + (18 * 8) / prm.pon_link_datarate)
                    "send_ul_payload"]) ∧
      s1.queue_TC3 = s.queue_TC3 ∧ s1.pending_buffer_TC3 = s.pending_buffer_TC3 ∧
      s1.onu_grant_TC3 ≤ 0 ∧
      (∀ t tb : ℚ,
        handleMessage prm index t (Msg.send_ul_payload tb) s1 = .ok (s1, [Action.deleteMsg])) ∧
      (∀ fuel : Nat,
        burst prm index (fuel + 1) now s =
          .ok (s1, [Action.deleteMsg, Action.sendGtc hdr,
                    Action.scheduleNew (now + (18 * 8) / prm.pon_link_datarate)
                      "send_ul_payload",
                    Action.deleteMsg])) ∧
      sentData [Action.deleteMsg, Action.sendGtc hdr,
                Action.scheduleNew (now + (18 * 8) / prm.pon_link_datarate) "send_ul_payload",
                Action.deleteMsg] = [] := by
  have hle : (onSendUlHeader prm index now s).1.onu_grant_TC3 ≤ 0 := by
    show s.onu_rx_grant_TC3 - (3 + 1 + 1 + 5 + 8) ≤ 0
    linarith
  have hacts : (onSendUlHeader prm index now s).2 =
      [Action.deleteMsg,
       Action.sendGtc { gtc_header.fresh.setByteLength (3 + 1 + 1 + 5 + 8) with
                          uplink := true, onuID := index },
       Action.scheduleNew (now + (18 * 8) / prm.pon_link_datarate) "send_ul_payload"] := by
    simp only [onSendUlHeader, gtc_header.setByteLength]
    norm_num
  have hg : ¬ (0 < (onSendUlHeader prm index now s).1.onu_grant_TC3 ∧
      0 < (onSendUlHeader prm index now s).1.pending_buffer_TC3) := fun hh =>
    absurd hh.1 (not_lt.mpr hle)
  refine ⟨{ gtc_header.fresh.setByteLength (3 + 1 + 1 + 5 + 8) with
              uplink := true, onuID := index },
    (onSendUlHeader prm index now s).1, ?_, rfl, rfl, ?_, rfl, rfl, hle, ?_, ?_, rfl⟩
  · simp [gtc_header.getByteLength, gtc_header.setByteLength]
  · rw [handleMessage_send_ul_header, ← hacts]
  · intro t tb
    rw [handleMessage_send_ul_payload]
    unfold onSendUlPayload
    rw [if_neg hg]
  · intro fuel
    rw [burst_unfold, drain_of_nonpos prm index fuel _ _ hle, hacts]
    rfl

/-- Witness of C11 with the zero grant of scenario 6 and four packets queued. -/
theorem insufficient_grant_no_payload_witness :
    (onuWith scenario2Queue 0 0).onu_rx_grant_TC3 ≤ 18 ∧
    ∃ (hdr : gtc_header) (s1 : ONU),
      hdr.getByteLength = 18 ∧ hdr.onuID = (4 : Nat) ∧ hdr.uplink = true ∧
      handleMessage scenarioParams 4 0 (Msg.send_ul_header 0) (onuWith scenario2Queue 0 0) =
        .ok (s1, [Action.deleteMsg, Action.sendGtc hdr,
                  Action.scheduleNew (0 + (18 * 8) / scenarioParams.pon_link_datarate)
                    "send_ul_payload"]) ∧
      s1.queue_TC3 = (onuWith scenario2Queue 0 0).queue_TC3 ∧
      s1.pending_buffer_TC3 = (onuWith scenario2Queue 0 0).pending_buffer_TC3 ∧
      s1.onu_grant_TC3 ≤ 0 ∧
      (∀ t tb : ℚ,
        handleMessage scenarioParams 4 t (Msg.send_ul_payload tb) s1
          = .ok (s1, [Action.deleteMsg])) ∧
      (∀ fuel : Nat,
        burst scenarioParams 4 (fuel + 1) 0 (onuWith scenario2Queue 0 0) =
          .ok (s1, [Action.deleteMsg, Action.sendGtc hdr,
                    Action.scheduleNew (0 + (18 * 8) / scenarioParams.pon_link_datarate)
                      "send_ul_payload",
                    Action.deleteMsg])) ∧
      sentData [Action.deleteMsg, Action.sendGtc hdr,
                Action.scheduleNew (0 + (18 * 8) / scenarioParams.pon_link_datarate)
                  "send_ul_payload",
                Action.deleteMsg] = [] :=
  ⟨by norm_num [onuWith],
   insufficient_grant_no_payload scenarioParams 4 0 0 (onuWith scenario2Queue 0 0)
     (by norm_num [onuWith])⟩

/-- C12. Ping echo: for every ONU state and every incoming ping probe the
handler makes exactly one host call, the immediate send of the probe with
its `ONU_id` field set to this ONU's index and every other field as
received, and leaves the whole ONU state unchanged (nothing is scheduled or
deleted); a probe with `ONU_id = -1` arriving at index 4 is echoed with
`ONU_id = 4`. -/
theorem ping_echo :
    (∀ (prm : SimParams) (index : Nat) (now ta : ℚ) (p : ping) (s : ONU),
      handleMessage prm index now (Msg.pingProbe p ta) s =
        .ok (s, [Action.sendPing { p with ONU_id := index }])) ∧
    (∀ (prm : SimParams) (now ta : ℚ) (r : Nat) (s : ONU),
      handleMessage prm 4 now (Msg.pingProbe { ONU_id := -1, rest := r } ta) s =
        .ok (s, [Action.sendPing { ONU_id := 4, rest := r }])) := by
  constructor
  · intro prm index now ta p s
    rw [handleMessage_ping]
    rfl
  · intro prm now ta r s
    rw [handleMessage_ping]
    rfl

/-! ## The drain loop as a count of packets -/

theorem drainCount_le_length (g P : ℚ) (q : List ethPacket) : drainCount g P q ≤ q.length := by
  induction q generalizing g P with
  | nil => simp [drainCount]
  | cons p q ih =>
    simp only [drainCount]
    split_ifs
    · simpa using ih _ _
    · simp

theorem drainCount_of_nonpos (g P : ℚ) (q : List ethPacket) (h : g ≤ 0) :
    drainCount g P q = 0 := by
  cases q with
  | nil => rfl
  | cons p q =>
    have hn : ¬ (0 < g ∧ 0 < P ∧ (p.getByteLength : ℚ) ≤ g) := fun hh =>
      absurd hh.1 (not_lt.mpr h)
    simp only [drainCount, if_neg hn]

theorem drain_count (prm : SimParams) (index : Nat) :
    ∀ (fuel : Nat) (now : ℚ) (s : ONU),
      s.pending_buffer_TC3 = queueBytes s.queue_TC3 → s.queue_TC3.length < fuel →
      ∃ s1 acts, drain prm index fuel now s = .ok (s1, acts) ∧
        s1.queue_TC3
          = s.queue_TC3.drop (drainCount s.onu_grant_TC3 s.pending_buffer_TC3 s.queue_TC3) ∧
        s1.pending_buffer_TC3 = s.pending_buffer_TC3 - queueBytes
          (s.queue_TC3.take (drainCount s.onu_grant_TC3 s.pending_buffer_TC3 s.queue_TC3)) ∧
        s1.onu_grant_TC3 = s.onu_grant_TC3 - queueBytes
          (s.queue_TC3.take (drainCount s.onu_grant_TC3 s.pending_buffer_TC3 s.queue_TC3)) ∧
        s1.onu_rx_grant_TC3 = s.onu_rx_grant_TC3 ∧
        (sentData acts).map ethPacket.withoutDeparture
          = (s.queue_TC3.take
              (drainCount s.onu_grant_TC3 s.pending_buffer_TC3 s.queue_TC3)).map
              ethPacket.withoutDeparture ∧
        sentHeaders acts = [] ∧
        drainFires acts = drainCount s.onu_grant_TC3 s.pending_buffer_TC3 s.queue_TC3 + 1 ∧
        acts.getLast? = some Action.deleteMsg := by
  intro fuel
  induction fuel with
  | zero => intro now s _ hlen; exact absurd hlen (Nat.not_lt_zero _)
  | succ fuel ih =>
    intro now s hc hlen
    by_cases hg : 0 < s.onu_grant_TC3 ∧ 0 < s.pending_buffer_TC3
    · cases hq : s.queue_TC3 with
      | nil =>
        rw [hq, queueBytes_nil] at hc
        exact absurd hg.2 (by rw [hc]; exact lt_irrefl 0)
      | cons front tail =>
        by_cases hf : (front.getByteLength : ℚ) ≤ s.onu_grant_TC3
        · have hcount : drainCount s.onu_grant_TC3 s.pending_buffer_TC3 (front :: tail)
              = drainCount (s.onu_grant_TC3 - front.getByteLength)
                  (s.pending_buffer_TC3 - front.getByteLength) tail + 1 := by
            simp only [drainCount, if_pos (And.intro hg.1 (And.intro hg.2 hf))]
          have hd : onSendUlPayload prm now s =
              .ok ({ s with queue_TC3 := tail,
                            onu_grant_TC3 := s.onu_grant_TC3 - front.getByteLength,
                            pending_buffer_TC3 := s.pending_buffer_TC3 - front.getByteLength },
                   [Action.sendEth { front with onuDepartureTime := now },
                    Action.emitLatency (now - front.onuArrivalTime),
                    Action.reschedule (now + front.bitLength / prm.pon_link_datarate)]) := by
            unfold onSendUlPayload
            rw [if_pos hg, hq]
            simp only [if_pos hf]
          have hc1 : s.pending_buffer_TC3 - (front.getByteLength : ℚ) = queueBytes tail := by
            rw [hc, hq, queueBytes_cons]; ring
          have hlen1 : tail.length < fuel := by
            rw [hq] at hlen
            simpa using hlen
          obtain ⟨s2, a2, hrun, h1, h2, h3, h4, h5, h6, h7, h8⟩ :=
            ih (now + front.bitLength / prm.pon_link_datarate)
              { s with queue_TC3 := tail,
                       onu_grant_TC3 := s.onu_grant_TC3 - front.getByteLength,
                       pending_buffer_TC3 := s.pending_buffer_TC3 - front.getByteLength }
              hc1 hlen1
          have hne : a2 ≠ [] := by
            intro h0
            rw [h0] at h8
            simp at h8
          refine ⟨s2, [Action.sendEth { front with onuDepartureTime := now },
              Action.emitLatency (now - front.onuArrivalTime),
              Action.reschedule (now + front.bitLength / prm.pon_link_datarate)] ++ a2,
            ?_, ?_, ?_, ?_, h4, ?_, ?_, ?_, ?_⟩
          · simp only [drain, handleMessage_send_ul_payload, hd, nextDrain, hrun]
          · rw [hcount, List.drop_succ_cons]; exact h1
          · rw [hcount, List.take_succ_cons, queueBytes_cons]
            have h2a : s2.pending_buffer_TC3 = (s.pending_buffer_TC3 - front.getByteLength)
                - queueBytes (tail.take (drainCount (s.onu_grant_TC3 - front.getByteLength)
                    (s.pending_buffer_TC3 - front.getByteLength) tail)) := h2
            rw [h2a]; ring
          · rw [hcount, List.take_succ_cons, queueBytes_cons]
            have h3a : s2.onu_grant_TC3 = (s.onu_grant_TC3 - front.getByteLength)
                - queueBytes (tail.take (drainCount (s.onu_grant_TC3 - front.getByteLength)
                    (s.pending_buffer_TC3 - front.getByteLength) tail)) := h3
            rw [h3a]; ring
          · rw [hcount, List.take_succ_cons]
            have hsd : sentData ([Action.sendEth { front with onuDepartureTime := now },
                Action.emitLatency (now - front.onuArrivalTime),
                Action.reschedule (now + front.bitLength / prm.pon_link_datarate)] ++ a2)
                = { front with onuDepartureTime := now } :: sentData a2 := rfl
            rw [hsd, List.map_cons, List.map_cons]
            exact congrArg₂ List.cons rfl h5
          · simp [sentHeaders, h6]
          · rw [hcount]
            have hdf : drainFires ([Action.sendEth { front with onuDepartureTime := now },
                Action.emitLatency (now - front.onuArrivalTime),
                Action.reschedule (now + front.bitLength / prm.pon_link_datarate)] ++ a2)
                = drainFires a2 + 1 := rfl
            rw [hdf]
            exact congrArg (· + 1) h7
          · rw [List.getLast?_append_of_ne_nil _ hne, h8]
        · have hcount : drainCount s.onu_grant_TC3 s.pending_buffer_TC3 (front :: tail) = 0 := by
            have hn : ¬ (0 < s.onu_grant_TC3 ∧ 0 < s.pending_buffer_TC3 ∧
                (front.getByteLength : ℚ) ≤ s.onu_grant_TC3) := fun hh => hf hh.2.2
            simp only [drainCount, if_neg hn]
          have hd : onSendUlPayload prm now s = .ok (s, [Action.deleteMsg]) := by
            unfold onSendUlPayload
            rw [if_pos hg, hq]
            simp only [if_neg hf]
          refine ⟨s, [Action.deleteMsg], ?_, ?_, ?_, ?_, rfl, ?_, rfl, ?_, rfl⟩
          · simp [drain, handleMessage_send_ul_payload, hd, nextDrain]
          · rw [hq, hcount]; rfl
          · rw [hcount]; simp [queueBytes]
          · rw [hcount]; simp [queueBytes]
          · rw [hcount]; simp [sentData]
          · rw [hcount]; rfl
    · have hcount : drainCount s.onu_grant_TC3 s.pending_buffer_TC3 s.queue_TC3 = 0 := by
        cases hq : s.queue_TC3 with
        | nil => rfl
        | cons front tail =>
          have hn : ¬ (0 < s.onu_grant_TC3 ∧ 0 < s.pending_buffer_TC3 ∧
              (front.getByteLength : ℚ) ≤ s.onu_grant_TC3) := fun hh => hg ⟨hh.1, hh.2.1⟩
          simp only [drainCount, if_neg hn]
      have hd : onSendUlPayload prm now s = .ok (s, [Action.deleteMsg]) := by
        unfold onSendUlPayload
        rw [if_neg hg]
      refine ⟨s, [Action.deleteMsg], ?_, ?_, ?_, ?_, rfl, ?_, rfl, ?_, rfl⟩
      · simp [drain, handleMessage_send_ul_payload, hd, nextDrain]
      · rw [hcount]; rfl
      · rw [hcount]; simp [queueBytes]
      · rw [hcount]; simp [queueBytes]
      · rw [hcount]; simp [sentData]
      · rw [hcount]; rfl

theorem sentHeaders_append (a b : List Action) :
    sentHeaders (a ++ b) = sentHeaders a ++ sentHeaders b := by
  induction a with
  | nil => rfl
  | cons x a ih => cases x <;> simp [sentHeaders, ih]

theorem run_scenario1Start :
    ∃ s acts, run scenarioParams 4 (ONU.init scenarioParams) scenario1Start = .ok (s, acts) ∧
      s.onu_grant_TC3 = 1582 ∧ s.pending_buffer_TC3 = 1500 ∧
      s.queue_TC3 = [{ packetOfBytes 1 1500 with onuArrivalTime := 0, onuId := 4, tContId := 3 }] := by
  refine ⟨(onSendUlHeader scenarioParams 4 (345 / 1000000)
      (onGtcHdrDl scenarioParams 4 (100 / 1000000) scenarioHeader
        (onBkgData scenarioParams 4 0 (packetOfBytes 1 1500) (ONU.init scenarioParams)).1).1).1,
    (onBkgData scenarioParams 4 0 (packetOfBytes 1 1500) (ONU.init scenarioParams)).2 ++
      ((onGtcHdrDl scenarioParams 4 (100 / 1000000) scenarioHeader
        (onBkgData scenarioParams 4 0 (packetOfBytes 1 1500) (ONU.init scenarioParams)).1).2 ++
       ((onSendUlHeader scenarioParams 4 (345 / 1000000)
        (onGtcHdrDl scenarioParams 4 (100 / 1000000) scenarioHeader
          (onBkgData scenarioParams 4 0 (packetOfBytes 1 1500)
            (ONU.init scenarioParams)).1).1).2 ++ [])), ?_, ?_, ?_, ?_⟩
  · simp only [run, scenario1Start, handleMessage_bkg_data, handleMessage_gtc_hdr_dl,
      handleMessage_send_ul_header]
  · norm_num [onSendUlHeader, onGtcHdrDl, scenarioHeader]
  · norm_num [onSendUlHeader, onGtcHdrDl, onBkgData, ONU.init, scenarioParams, packetOfBytes,
      ethPacket.getByteLength]
  · norm_num [onSendUlHeader, onGtcHdrDl, onBkgData, ONU.init, scenarioParams, packetOfBytes,
      ethPacket.getByteLength]

/-! ## Safety of the queue read and termination of the drain -/

/-- C19. Queue access is safe: from the initial state, every sequence of
events that is not aborted by a failed cast ends in a state where the drain
guard (`remaining grant > 0` and `P3 > 0`) implies that Q3 is non-empty, so a
`send_ul_payload` fire in that state, at whatever time, returns a result and
never reads through a null `front()`. -/
theorem queue_access_safe (prm : SimParams) (index : Nat) (evs : List Event) :
    (∃ s acts, run prm index (ONU.init prm) evs = .ok (s, acts) ∧
      (0 < s.onu_grant_TC3 ∧ 0 < s.pending_buffer_TC3 →
        ∃ front tail, s.queue_TC3 = front :: tail) ∧
      (∀ now ta : ℚ, ∃ r, handleMessage prm index now (Msg.send_ul_payload ta) s = .ok r)) ∨
    (run prm index (ONU.init prm) evs = .error .castFailure ∧
      ∃ e ∈ evs, e.msg.castOk = false) := by
  rcases run_summary prm index evs (ONU.init prm) (coherent_init prm) with
    h | ⟨s, acts, _, hrun, hc, _, _, _⟩
  · exact Or.inr h
  · refine Or.inl ⟨s, acts, hrun, ?_, ?_⟩
    · intro hg
      cases hq : s.queue_TC3 with
      | nil =>
        have h3 := hc.1
        rw [hq, queueBytes_nil] at h3
        exact absurd hg.2 (by rw [h3]; exact lt_irrefl 0)
      | cons front tail => exact ⟨front, tail, rfl⟩
    · intro now ta
      rw [handleMessage_send_ul_payload]
      rcases onSendUlPayload_cases prm now s hc.1 with hd | ⟨_, _, _, _, _, hd⟩
      · exact ⟨_, hd⟩
      · exact ⟨_, hd⟩

/-- Witness of C19 after the first three events of scenario 1: the guard
holds (remaining grant 1582, `P3 = 1500`) and Q3 has a front packet. -/
theorem queue_access_safe_witness :
    ∃ s acts, run scenarioParams 4 (ONU.init scenarioParams) scenario1Start = .ok (s, acts) ∧
      0 < s.onu_grant_TC3 ∧ 0 < s.pending_buffer_TC3 ∧
      (∃ front tail, s.queue_TC3 = front :: tail) ∧
      (∀ now ta : ℚ,
        ∃ r, handleMessage scenarioParams 4 now (Msg.send_ul_payload ta) s = .ok r) := by
  obtain ⟨s1, a1, hrun1, hg, hp, _⟩ := run_scenario1Start
  rcases queue_access_safe scenarioParams 4 scenario1Start with
    ⟨s, acts, hrun, hsafe, hok⟩ | ⟨herr, _⟩
  · have hs : s = s1 := by
      rw [hrun1] at hrun
      simp only [Except.ok.injEq, Prod.mk.injEq] at hrun
      exact hrun.1.symm
    have hg1 : 0 < s.onu_grant_TC3 := by rw [hs, hg]; norm_num
    have hp1 : 0 < s.pending_buffer_TC3 := by rw [hs, hp]; norm_num
    exact ⟨s, acts, hrun, hg1, hp1, hsafe ⟨hg1, hp1⟩, hok⟩
  · rw [hrun1] at herr
    simp at herr

/-- C20. A burst terminates: in every state where P3 is the byte sum of Q3
(any remaining grant, any finite Q3, zero-byte packets included), iterating
the `send_ul_payload` handler with no other event in between ends with the
deletion of the drain event after at most `length Q3 + 1` fires: the number
of fires is one more than the number of packets sent, and the packets sent
and the packets left in Q3 add up to the initial length of Q3. And in every
state, a fire that re-arms the drain event removes exactly one packet from
Q3. -/
theorem drain_terminates (prm : SimParams) (index : Nat) (now : ℚ) (s : ONU)
    (hc : s.pending_buffer_TC3 = queueBytes s.queue_TC3) :
    (∃ s1 acts, drain prm index (s.queue_TC3.length + 1) now s = .ok (s1, acts) ∧
      acts.getLast? = some Action.deleteMsg ∧
      drainFires acts ≤ s.queue_TC3.length + 1 ∧
      drainFires acts = (sentData acts).length + 1 ∧
      (sentData acts).length + s1.queue_TC3.length = s.queue_TC3.length) ∧
    (∀ (s0 s1 : ONU) (t tb tn : ℚ) (a1 : List Action),
      handleMessage prm index t (Msg.send_ul_payload tb) s0 = .ok (s1, a1) →
      nextDrain a1 = some tn →
      s1.queue_TC3.length + 1 = s0.queue_TC3.length) := by
  constructor
  · obtain ⟨s1, acts, hrun, hq, _, _, _, hsent, _, hfires, hlast⟩ :=
      drain_count prm index (s.queue_TC3.length + 1) now s hc (Nat.lt_succ_self _)
    have hm := drainCount_le_length s.onu_grant_TC3 s.pending_buffer_TC3 s.queue_TC3
    have hlen : (sentData acts).length
        = drainCount s.onu_grant_TC3 s.pending_buffer_TC3 s.queue_TC3 := by
      have := congrArg List.length hsent
      simpa [List.length_take, hm] using this
    refine ⟨s1, acts, hrun, hlast, ?_, ?_, ?_⟩
    · rw [hfires]; omega
    · rw [hfires, hlen]
    · rw [hlen, hq, List.length_drop]; omega
  · intro s0 s1 t tb tn a1 h hn
    rw [handleMessage_send_ul_payload] at h
    rcases onSendUlPayload_trichotomy prm t s0 with ⟨hd, _⟩ | hd | ⟨front, tail, hq, _, _, hd⟩
    · rw [hd] at h; simp at h
    · rw [hd] at h
      simp only [Except.ok.injEq, Prod.mk.injEq] at h
      rw [← h.2] at hn
      simp [nextDrain] at hn
    · rw [hd] at h
      simp only [Except.ok.injEq, Prod.mk.injEq] at h
      rw [← h.1, hq]
      rfl

/-- Witness of C20 on the four packets of scenario 2 with remaining grant
`1082`. -/
theorem drain_terminates_witness :
    (onuWith scenario2Queue 1100 1082).pending_buffer_TC3
      = queueBytes (onuWith scenario2Queue 1100 1082).queue_TC3 ∧
    ∃ s1 acts,
      drain scenarioParams 4 ((onuWith scenario2Queue 1100 1082).queue_TC3.length + 1) 0
        (onuWith scenario2Queue 1100 1082) = .ok (s1, acts) ∧
      acts.getLast? = some Action.deleteMsg ∧
      drainFires acts ≤ (onuWith scenario2Queue 1100 1082).queue_TC3.length + 1 ∧
      drainFires acts = (sentData acts).length + 1 ∧
      (sentData acts).length + s1.queue_TC3.length
        = (onuWith scenario2Queue 1100 1082).queue_TC3.length :=
  ⟨rfl, (drain_terminates scenarioParams 4 0 (onuWith scenario2Queue 1100 1082) rfl).1⟩

/-! ## What one burst sends -/

theorem queueBytes_take_succ_cons (p : ethPacket) (q : List ethPacket) (k : Nat) :
    queueBytes ((p :: q).take (k + 1)) = p.getByteLength + queueBytes (q.take k) := by
  rw [List.take_succ_cons, queueBytes_cons]

theorem drainCount_spec :
    ∀ (q : List ethPacket) (g : ℚ), (∀ p ∈ q, 0 < p.getByteLength) →
      (0 ≤ g → queueBytes (q.take (drainCount g (queueBytes q) q)) ≤ g ∧
        ∀ k, drainCount g (queueBytes q) q < k → k ≤ q.length → g < queueBytes (q.take k)) ∧
      (g ≤ 0 → drainCount g (queueBytes q) q = 0) := by
  intro q
  induction q with
  | nil =>
    intro g _
    refine ⟨fun hg => ⟨by simpa [drainCount, queueBytes] using hg, ?_⟩, fun _ => rfl⟩
    intro k hk hk0
    simp only [drainCount, List.length_nil] at hk hk0
    omega
  | cons p q ih =>
    intro g hpos
    have hp : (0 : ℚ) < p.getByteLength := by
      exact_mod_cast hpos p (List.mem_cons_self _ _)
    have hposq : ∀ x ∈ q, 0 < x.getByteLength := fun x hx => hpos x (List.mem_cons_of_mem _ hx)
    have hP : 0 < queueBytes (p :: q) := by
      rw [queueBytes_cons]
      linarith [queueBytes_nonneg q]
    have hsub : queueBytes (p :: q) - (p.getByteLength : ℚ) = queueBytes q := by
      rw [queueBytes_cons]; ring
    refine ⟨fun hg => ?_, fun hg => drainCount_of_nonpos _ _ _ hg⟩
    by_cases hfit : 0 < g ∧ 0 < queueBytes (p :: q) ∧ (p.getByteLength : ℚ) ≤ g
    · have hcount : drainCount g (queueBytes (p :: q)) (p :: q)
          = drainCount (g - p.getByteLength) (queueBytes q) q + 1 := by
        simp only [drainCount, if_pos hfit, hsub]
      obtain ⟨hle, hmax⟩ := (ih (g - p.getByteLength) hposq).1 (by linarith [hfit.2.2])
      rw [hcount]
      refine ⟨?_, ?_⟩
      · rw [queueBytes_take_succ_cons]; linarith
      · intro k hk hklen
        obtain ⟨k1, rfl⟩ : ∃ k1, k = k1 + 1 := ⟨k - 1, by omega⟩
        rw [queueBytes_take_succ_cons]
        have := hmax k1 (by omega) (by simpa using hklen)
        linarith
    · have hcount : drainCount g (queueBytes (p :: q)) (p :: q) = 0 := by
        simp only [drainCount, if_neg hfit]
      rw [hcount]
      refine ⟨by simpa [queueBytes] using hg, ?_⟩
      intro k hk _
      obtain ⟨k1, rfl⟩ : ∃ k1, k = k1 + 1 := ⟨k - 1, by omega⟩
      rw [queueBytes_take_succ_cons]
      have hnn : 0 ≤ queueBytes (q.take k1) := queueBytes_nonneg _
      by_cases hg0 : 0 < g
      · have : ¬ ((p.getByteLength : ℚ) ≤ g) := fun h => hfit ⟨hg0, hP, h⟩
        linarith [not_le.mp this]
      · linarith [not_lt.mp hg0]

theorem burst_count (prm : SimParams) (index : Nat) (now : ℚ) (s : ONU)
    (hc : s.pending_buffer_TC3 = queueBytes s.queue_TC3) :
    ∃ s1 acts, burst prm index (s.queue_TC3.length + 1) now s = .ok (s1, acts) ∧
      s1.queue_TC3
        = s.queue_TC3.drop (drainCount (s.onu_rx_grant_TC3 - 18) s.pending_buffer_TC3
            s.queue_TC3) ∧
      s1.pending_buffer_TC3 = s.pending_buffer_TC3 - queueBytes
        (s.queue_TC3.take (drainCount (s.onu_rx_grant_TC3 - 18) s.pending_buffer_TC3
          s.queue_TC3)) ∧
      s1.onu_grant_TC3 = s.onu_rx_grant_TC3 - 18 - queueBytes
        (s.queue_TC3.take (drainCount (s.onu_rx_grant_TC3 - 18) s.pending_buffer_TC3
          s.queue_TC3)) ∧
      s1.onu_rx_grant_TC3 = s.onu_rx_grant_TC3 ∧
      (sentData acts).map ethPacket.withoutDeparture
        = (s.queue_TC3.take (drainCount (s.onu_rx_grant_TC3 - 18) s.pending_buffer_TC3
            s.queue_TC3)).map ethPacket.withoutDeparture ∧
      (sentHeaders acts).length = 1 ∧
      acts.getLast? = some Action.deleteMsg := by
  have hg : (3 + 1 + 1 + 5 + 8 : ℚ) = 18 := by norm_num
  obtain ⟨s2, a2, hrun, h1, h2, h3, h4, h5, h6, _, h8⟩ :=
    drain_count prm index (s.queue_TC3.length + 1)
      (now + ((8 * (3 + 1 + 1 + 5 + 8) : Nat) : ℚ) / prm.pon_link_datarate)
      (onSendUlHeader prm index now s).1 hc (Nat.lt_succ_self _)
  have hgr : (onSendUlHeader prm index now s).1.onu_grant_TC3 = s.onu_rx_grant_TC3 - 18 := by
    show s.onu_rx_grant_TC3 - (3 + 1 + 1 + 5 + 8) = _
    rw [hg]
  have hqq : (onSendUlHeader prm index now s).1.queue_TC3 = s.queue_TC3 := rfl
  have hpp : (onSendUlHeader prm index now s).1.pending_buffer_TC3 = s.pending_buffer_TC3 := rfl
  have hrr : (onSendUlHeader prm index now s).1.onu_rx_grant_TC3 = s.onu_rx_grant_TC3 := rfl
  rw [hgr, hqq, hpp] at h1 h2 h3 h5
  have hne : a2 ≠ [] := by
    intro h0
    rw [h0] at h8
    simp at h8
  refine ⟨s2, (onSendUlHeader prm index now s).2 ++ a2, by rw [burst_unfold, hrun],
    h1, h2, h3, h4.trans hrr, ?_, ?_, ?_⟩
  · rw [sentData_append]
    exact h5
  · rw [sentHeaders_append, h6]
    rfl
  · rw [List.getLast?_append_of_ne_nil _ hne, h8]

/-- C15. A burst sends the longest affordable run of packets from the front
of the queue: for every Q3 of packets with positive byte lengths, P3 their
byte sum, and every `rx_grant_3 = G`, a burst with no other event in between
runs to the deletion of the drain event and sends exactly the first `m`
packets of Q3, in order, where `m` is the largest count whose byte sum is
`≤ G - 18` (so a packet that exactly uses up the remaining grant is still
sent) and `m = 0` when `G ≤ 18`; it leaves Q3 without those `m` packets, P3
reduced by their byte sum and the remaining grant at `G - 18` minus that
sum. -/
theorem burst_sends_longest_affordable (prm : SimParams) (index : Nat) (now : ℚ) (s : ONU)
    (hc : s.pending_buffer_TC3 = queueBytes s.queue_TC3)
    (hpos : ∀ p ∈ s.queue_TC3, 0 < p.getByteLength) :
    ∃ m s1 acts, burst prm index (s.queue_TC3.length + 1) now s = .ok (s1, acts) ∧
      acts.getLast? = some Action.deleteMsg ∧
      m ≤ s.queue_TC3.length ∧
      (18 ≤ s.onu_rx_grant_TC3 →
        queueBytes (s.queue_TC3.take m) ≤ s.onu_rx_grant_TC3 - 18 ∧
        ∀ k, m < k → k ≤ s.queue_TC3.length →
          s.onu_rx_grant_TC3 - 18 < queueBytes (s.queue_TC3.take k)) ∧
      (s.onu_rx_grant_TC3 ≤ 18 → m = 0) ∧
      (sentData acts).map ethPacket.withoutDeparture
        = (s.queue_TC3.take m).map ethPacket.withoutDeparture ∧
      s1.queue_TC3 = s.queue_TC3.drop m ∧
      s1.pending_buffer_TC3 = s.pending_buffer_TC3 - queueBytes (s.queue_TC3.take m) ∧
      s1.onu_grant_TC3 = s.onu_rx_grant_TC3 - 18 - queueBytes (s.queue_TC3.take m) := by
  obtain ⟨s1, acts, hrun, h1, h2, h3, _, h5, _, h7⟩ := burst_count prm index now s hc
  have hspec := drainCount_spec s.queue_TC3 (s.onu_rx_grant_TC3 - 18) hpos
  rw [← hc] at hspec
  refine ⟨drainCount (s.onu_rx_grant_TC3 - 18) s.pending_buffer_TC3 s.queue_TC3, s1, acts,
    hrun, h7, drainCount_le_length _ _ _, fun h18 => hspec.1 (by linarith),
    fun h18 => hspec.2 (by linarith), h5, h1, h2, h3⟩

/-- Witness of C15 in scenario 2: lengths `{500, 500, 500, 500}` and
`G = 1100`; two packets are sent, two stay queued with `P3 = 1000`, and the
remaining grant ends at `82`. -/
theorem burst_sends_longest_affordable_witness :
    (onuWith scenario2Queue 1100 0).pending_buffer_TC3
      = queueBytes (onuWith scenario2Queue 1100 0).queue_TC3 ∧
    (∀ p ∈ (onuWith scenario2Queue 1100 0).queue_TC3, 0 < p.getByteLength) ∧
    ∃ s1 acts,
      burst scenarioParams 4 ((onuWith scenario2Queue 1100 0).queue_TC3.length + 1) 0
        (onuWith scenario2Queue 1100 0) = .ok (s1, acts) ∧
      (sentData acts).map ethPacket.withoutDeparture
        = [packetOfBytes 1 500, packetOfBytes 2 500] ∧
      s1.queue_TC3 = [packetOfBytes 3 500, packetOfBytes 4 500] ∧
      s1.pending_buffer_TC3 = 1000 ∧
      s1.onu_grant_TC3 = 82 := by
  have hpos : ∀ p ∈ (onuWith scenario2Queue 1100 0).queue_TC3, 0 < p.getByteLength := by
    intro p hp
    simp only [onuWith, scenario2Queue, List.mem_cons, List.mem_singleton,
      List.not_mem_nil, or_false] at hp
    rcases hp with rfl | rfl | rfl | rfl <;> simp [packetOfBytes_getByteLength]
  refine ⟨rfl, hpos, ?_⟩
  obtain ⟨m, s1, acts, hrun, _, hm, hmax, _, hsent, hq, hp, hg⟩ :=
    burst_sends_longest_affordable scenarioParams 4 0 (onuWith scenario2Queue 1100 0) rfl hpos
  have h18 : (18 : ℚ) ≤ (onuWith scenario2Queue 1100 0).onu_rx_grant_TC3 := by
    norm_num [onuWith]
  obtain ⟨hle, hgt⟩ := hmax h18
  have hm4 : m ≤ 4 := hm
  have hm2 : m = 2 := by
    interval_cases m
    · have := hgt 2 (by norm_num) (by norm_num [onuWith, scenario2Queue])
      norm_num [onuWith, scenario2Queue, queueBytes, packetOfBytes_getByteLength] at this
    · have := hgt 2 (by norm_num) (by norm_num [onuWith, scenario2Queue])
      norm_num [onuWith, scenario2Queue, queueBytes, packetOfBytes_getByteLength] at this
    · rfl
    · norm_num [onuWith, scenario2Queue, queueBytes, packetOfBytes_getByteLength] at hle
    · norm_num [onuWith, scenario2Queue, queueBytes, packetOfBytes_getByteLength] at hle
  subst hm2
  refine ⟨s1, acts, hrun, ?_, ?_, ?_, ?_⟩
  · rw [hsent]; rfl
  · rw [hq]; rfl
  · rw [hp]
    norm_num [onuWith, scenario2Queue, queueBytes, packetOfBytes_getByteLength]
  · rw [hg]
    norm_num [onuWith, scenario2Queue, queueBytes, packetOfBytes_getByteLength]

/-! ## Back-to-back grants (scenarios 2 and 4) -/

theorem run_scenario2Events :
    ∃ s acts, run scenarioParams 4 (ONU.init scenarioParams) scenario2Events = .ok (s, acts) ∧
      s.queue_TC3 = [queuedPacket 1 500, queuedPacket 2 500, queuedPacket 3 500,
        queuedPacket 4 500] ∧
      s.pending_buffer_TC3 = 2000 ∧ s.onu_rx_grant_TC3 = 1100 ∧ sentData acts = [] := by
  refine ⟨(onGtcHdrDl scenarioParams 4 (100 / 1000000) (headerWithGrant 1100)
      (onBkgData scenarioParams 4 0 (packetOfBytes 4 500)
        (onBkgData scenarioParams 4 0 (packetOfBytes 3 500)
          (onBkgData scenarioParams 4 0 (packetOfBytes 2 500)
            (onBkgData scenarioParams 4 0 (packetOfBytes 1 500)
              (ONU.init scenarioParams)).1).1).1).1).1,
    (onBkgData scenarioParams 4 0 (packetOfBytes 1 500) (ONU.init scenarioParams)).2 ++
    ((onBkgData scenarioParams 4 0 (packetOfBytes 2 500)
      (onBkgData scenarioParams 4 0 (packetOfBytes 1 500) (ONU.init scenarioParams)).1).2 ++
    ((onBkgData scenarioParams 4 0 (packetOfBytes 3 500)
      (onBkgData scenarioParams 4 0 (packetOfBytes 2 500)
        (onBkgData scenarioParams 4 0 (packetOfBytes 1 500)
          (ONU.init scenarioParams)).1).1).2 ++
    ((onBkgData scenarioParams 4 0 (packetOfBytes 4 500)
      (onBkgData scenarioParams 4 0 (packetOfBytes 3 500)
        (onBkgData scenarioParams 4 0 (packetOfBytes 2 500)
          (onBkgData scenarioParams 4 0 (packetOfBytes 1 500)
            (ONU.init scenarioParams)).1).1).1).2 ++
    ((onGtcHdrDl scenarioParams 4 (100 / 1000000) (headerWithGrant 1100)
      (onBkgData scenarioParams 4 0 (packetOfBytes 4 500)
        (onBkgData scenarioParams 4 0 (packetOfBytes 3 500)
          (onBkgData scenarioParams 4 0 (packetOfBytes 2 500)
            (onBkgData scenarioParams 4 0 (packetOfBytes 1 500)
              (ONU.init scenarioParams)).1).1).1).1).2 ++ [])))), ?_, ?_, ?_, ?_, ?_⟩
  · simp only [run, scenario2Events, handleMessage_bkg_data, handleMessage_gtc_hdr_dl]
  · norm_num [onGtcHdrDl, onBkgData, ONU.init, scenarioParams, packetOfBytes, queuedPacket,
      ethPacket.getByteLength]
  · norm_num [onGtcHdrDl, onBkgData, ONU.init, scenarioParams, packetOfBytes,
      ethPacket.getByteLength]
  · norm_num [onGtcHdrDl, headerWithGrant]
  · norm_num [onGtcHdrDl, onBkgData, ONU.init, scenarioParams, packetOfBytes,
      ethPacket.getByteLength, sentData]

theorem queuedPacket_getByteLength (tag n : Nat) : (queuedPacket tag n).getByteLength = n :=
  packetOfBytes_getByteLength tag n

theorem drainCount_scenario2 :
    drainCount (1100 - 18) 2000
      [queuedPacket 1 500, queuedPacket 2 500, queuedPacket 3 500, queuedPacket 4 500] = 2 := by
  norm_num [drainCount, queuedPacket_getByteLength]

theorem drainCount_scenario4 :
    drainCount (2000 - 18) 1000 [queuedPacket 3 500, queuedPacket 4 500] = 2 := by
  norm_num [drainCount, queuedPacket_getByteLength]

theorem scenario4_trace :
    ∃ s1 a1 s2 a2 s3 a3 s4 a4,
      run scenarioParams 4 (ONU.init scenarioParams) scenario2Events = .ok (s1, a1) ∧
      burst scenarioParams 4 (s1.queue_TC3.length + 1) (345 / 1000000) s1 = .ok (s2, a2) ∧
      (sentData a2).map ethPacket.withoutDeparture = [queuedPacket 1 500, queuedPacket 2 500] ∧
      s2.queue_TC3 = [queuedPacket 3 500, queuedPacket 4 500] ∧
      s2.pending_buffer_TC3 = 1000 ∧ s2.onu_grant_TC3 = 82 ∧
      handleMessage scenarioParams 4 (1000 / 1000000)
        (Msg.gtc_hdr_dl (headerWithGrant 2000) (1000 / 1000000)) s2 = .ok (s3, a3) ∧
      s3.onu_rx_grant_TC3 = 2000 ∧
      burst scenarioParams 4 (s3.queue_TC3.length + 1) (1245 / 1000000) s3 = .ok (s4, a4) ∧
      (sentHeaders a4).length = 1 ∧
      (sentData a4).map ethPacket.withoutDeparture = [queuedPacket 3 500, queuedPacket 4 500] ∧
      s4.queue_TC3 = [] ∧ s4.pending_buffer_TC3 = 0 ∧ s4.onu_grant_TC3 = 982 := by
  obtain ⟨s1, a1, hrun1, hq1, hp1, hrx1, _⟩ := run_scenario2Events
  have hc1 : s1.pending_buffer_TC3 = queueBytes s1.queue_TC3 := by
    rw [hp1, hq1]
    norm_num [queueBytes, queuedPacket_getByteLength]
  obtain ⟨s2, a2, hrun2, hq2, hp2, hg2, _, hsent2, _, _⟩ :=
    burst_count scenarioParams 4 (345 / 1000000) s1 hc1
  rw [hq1, hp1, hrx1, drainCount_scenario2] at hq2 hp2 hg2 hsent2
  have hq2a : s2.queue_TC3 = [queuedPacket 3 500, queuedPacket 4 500] := hq2
  have hp2a : s2.pending_buffer_TC3 = 1000 := by
    rw [hp2]
    norm_num [queueBytes, queuedPacket_getByteLength]
  have hg2a : s2.onu_grant_TC3 = 82 := by
    rw [hg2]
    norm_num [queueBytes, queuedPacket_getByteLength]
  have hq3 : (onGtcHdrDl scenarioParams 4 (1000 / 1000000) (headerWithGrant 2000) s2).1.queue_TC3
      = [queuedPacket 3 500, queuedPacket 4 500] := hq2a
  have hp3 : (onGtcHdrDl scenarioParams 4 (1000 / 1000000) (headerWithGrant 2000)
      s2).1.pending_buffer_TC3 = 1000 := hp2a
  have hrx3 : (onGtcHdrDl scenarioParams 4 (1000 / 1000000) (headerWithGrant 2000)
      s2).1.onu_rx_grant_TC3 = 2000 := rfl
  have hc3 : (onGtcHdrDl scenarioParams 4 (1000 / 1000000) (headerWithGrant 2000)
      s2).1.pending_buffer_TC3
      = queueBytes (onGtcHdrDl scenarioParams 4 (1000 / 1000000) (headerWithGrant 2000)
          s2).1.queue_TC3 := by
    rw [hp3, hq3]
    norm_num [queueBytes, queuedPacket_getByteLength]
  obtain ⟨s4, a4, hrun4, hq4, hp4, hg4, _, hsent4, hhdr4, _⟩ :=
    burst_count scenarioParams 4 (1245 / 1000000)
      (onGtcHdrDl scenarioParams 4 (1000 / 1000000) (headerWithGrant 2000) s2).1 hc3
  rw [hq3, hp3, hrx3, drainCount_scenario4] at hq4 hp4 hg4 hsent4
  refine ⟨s1, a1, s2, a2,
    (onGtcHdrDl scenarioParams 4 (1000 / 1000000) (headerWithGrant 2000) s2).1,
    (onGtcHdrDl scenarioParams 4 (1000 / 1000000) (headerWithGrant 2000) s2).2,
    s4, a4, hrun1, hrun2, hsent2, hq2a, hp2a, hg2a, ?_, hrx3, hrun4, hhdr4, hsent4, hq4, ?_, ?_⟩
  · rw [handleMessage_gtc_hdr_dl]
  · rw [hp4]
    norm_num [queueBytes, queuedPacket_getByteLength]
  · rw [hg4]
    norm_num [queueBytes, queuedPacket_getByteLength]

/-- C16 fails as stated: after scenario 2 only two packets are left in Q3, so
the burst of the second grant (`rx_grant_3 = 2000`) sends its header and then
two 500-byte packets, not three, and leaves Q3 empty, not holding one
packet. -/
theorem back_to_back_counterexample :
    ∃ s1 a1 s2 a2 s3 a3 s4 a4,
      run scenarioParams 4 (ONU.init scenarioParams) scenario2Events = .ok (s1, a1) ∧
      burst scenarioParams 4 (s1.queue_TC3.length + 1) (345 / 1000000) s1 = .ok (s2, a2) ∧
      handleMessage scenarioParams 4 (1000 / 1000000)
        (Msg.gtc_hdr_dl (headerWithGrant 2000) (1000 / 1000000)) s2 = .ok (s3, a3) ∧
      burst scenarioParams 4 (s3.queue_TC3.length + 1) (1245 / 1000000) s3 = .ok (s4, a4) ∧
      (sentData a4).length = 2 ∧ (sentData a4).length ≠ 3 ∧
      s4.queue_TC3.length = 0 ∧ s4.queue_TC3.length ≠ 1 := by
  obtain ⟨s1, a1, s2, a2, s3, a3, s4, a4, h1, h2, _, _, _, _, h3, _, h4, _, hsent, hq, _, _⟩ :=
    scenario4_trace
  have hlen : (sentData a4).length = 2 := by
    have := congrArg List.length hsent
    simpa using this
  exact ⟨s1, a1, s2, a2, s3, a3, s4, a4, h1, h2, h3, h4, hlen, by rw [hlen]; norm_num,
    by rw [hq]; rfl, by rw [hq]; simp⟩

theorem onSendUlPayload_emit (prm : SimParams) (now : ℚ) (s : ONU) (front : ethPacket)
    (tail : List ethPacket) (hq : s.queue_TC3 = front :: tail) (hg : 0 < s.onu_grant_TC3)
    (hp : 0 < s.pending_buffer_TC3) (hf : (front.getByteLength : ℚ) ≤ s.onu_grant_TC3) :
    onSendUlPayload prm now s =
      .ok ({ s with queue_TC3 := tail,
                    onu_grant_TC3 := s.onu_grant_TC3 - front.getByteLength,
                    pending_buffer_TC3 := s.pending_buffer_TC3 - front.getByteLength },
           [Action.sendEth { front with onuDepartureTime := now },
            Action.emitLatency (now - front.onuArrivalTime),
            Action.reschedule (now + front.bitLength / prm.pon_link_datarate)]) := by
  unfold onSendUlPayload
  rw [if_pos ⟨hg, hp⟩, hq]
  simp only [if_pos hf]

/-- C16 as amended: from the state left by scenario 2 (four 500-byte packets
admitted, one burst with `rx_grant_3 = 1100` completed, which sent the first
two packets and left two queued with `P3 = 1000`), a second downstream
header with `rx_grant_3 = 2000` followed by its burst sends one new upstream
header and then the two remaining 500-byte packets in order, and leaves Q3
empty with `P3 = 0`; fire by fire, the remaining grant is 1982 after the
header, 1482 and 982 after the two packets, and the third drain fire deletes
the drain event. -/
theorem back_to_back_grants :
    ∃ s1 a1 s2 a2 s3 a3 s4 a4,
      run scenarioParams 4 (ONU.init scenarioParams) scenario2Events = .ok (s1, a1) ∧
      burst scenarioParams 4 (s1.queue_TC3.length + 1) (345 / 1000000) s1 = .ok (s2, a2) ∧
      (sentData a2).map ethPacket.withoutDeparture = [queuedPacket 1 500, queuedPacket 2 500] ∧
      s2.queue_TC3 = [queuedPacket 3 500, queuedPacket 4 500] ∧
      s2.pending_buffer_TC3 = 1000 ∧ s2.onu_grant_TC3 = 82 ∧
      handleMessage scenarioParams 4 (1000 / 1000000)
        (Msg.gtc_hdr_dl (headerWithGrant 2000) (1000 / 1000000)) s2 = .ok (s3, a3) ∧
      s3.onu_rx_grant_TC3 = 2000 ∧
      burst scenarioParams 4 (s3.queue_TC3.length + 1) (1245 / 1000000) s3 = .ok (s4, a4) ∧
      (sentHeaders a4).length = 1 ∧
      (sentData a4).map ethPacket.withoutDeparture = [queuedPacket 3 500, queuedPacket 4 500] ∧
      s4.queue_TC3 = [] ∧ s4.pending_buffer_TC3 = 0 ∧ s4.onu_grant_TC3 = 982 ∧
      ∃ u1 b1 u2 u3 : _,
        handleMessage scenarioParams 4 (1245 / 1000000) (Msg.send_ul_header (1245 / 1000000)) s3
          = .ok (u1, b1) ∧
        u1.onu_grant_TC3 = 1982 ∧
        (∀ t : ℚ, handleMessage scenarioParams 4 t (Msg.send_ul_payload t) u1 =
          .ok (u2, [Action.sendEth { queuedPacket 3 500 with onuDepartureTime := t },
                    Action.emitLatency (t - 0),
                    Action.reschedule (t + 4000 / scenarioParams.pon_link_datarate)])) ∧
        u2.onu_grant_TC3 = 1482 ∧
        (∀ t : ℚ, handleMessage scenarioParams 4 t (Msg.send_ul_payload t) u2 =
          .ok (u3, [Action.sendEth { queuedPacket 4 500 with onuDepartureTime := t },
                    Action.emitLatency (t - 0),
                    Action.reschedule (t + 4000 / scenarioParams.pon_link_datarate)])) ∧
        u3.onu_grant_TC3 = 982 ∧ u3.queue_TC3 = [] ∧
        (∀ t : ℚ, handleMessage scenarioParams 4 t (Msg.send_ul_payload t) u3 =
          .ok (u3, [Action.deleteMsg])) := by
  obtain ⟨s1, a1, s2, a2, s3, a3, s4, a4, h1, h2, h3, h4, h5, h6, h7, h8, h9, h10, h11, h12,
    h13, h14⟩ := scenario4_trace
  have hs3 : s3 = (onGtcHdrDl scenarioParams 4 (1000 / 1000000) (headerWithGrant 2000) s2).1 := by
    have h7a := h7
    rw [handleMessage_gtc_hdr_dl] at h7a
    simp only [Except.ok.injEq] at h7a
    rw [h7a]
  have hq3 : s3.queue_TC3 = [queuedPacket 3 500, queuedPacket 4 500] := by rw [hs3]; exact h4
  have hp3 : s3.pending_buffer_TC3 = 1000 := by rw [hs3]; exact h5
  -- the state after the header fire
  have hu1g : (onSendUlHeader scenarioParams 4 (1245 / 1000000) s3).1.onu_grant_TC3 = 1982 := by
    show s3.onu_rx_grant_TC3 - (3 + 1 + 1 + 5 + 8) = 1982
    rw [h8]; norm_num
  have hu1q : (onSendUlHeader scenarioParams 4 (1245 / 1000000) s3).1.queue_TC3
      = queuedPacket 3 500 :: [queuedPacket 4 500] := hq3
  have hu1p : (onSendUlHeader scenarioParams 4 (1245 / 1000000) s3).1.pending_buffer_TC3
      = 1000 := hp3
  have hb : ((queuedPacket 3 500).getByteLength : ℚ) = 500 := by
    rw [queuedPacket_getByteLength]; norm_num
  have hb4 : ((queuedPacket 4 500).getByteLength : ℚ) = 500 := by
    rw [queuedPacket_getByteLength]; norm_num
  have hbit3 : ((queuedPacket 3 500).bitLength : ℚ) = 4000 := by
    norm_num [queuedPacket, packetOfBytes]
  have hbit4 : ((queuedPacket 4 500).bitLength : ℚ) = 4000 := by
    norm_num [queuedPacket, packetOfBytes]
  refine ⟨s1, a1, s2, a2, s3, a3, s4, a4, h1, h2, h3, h4, h5, h6, h7, h8, h9, h10, h11, h12,
    h13, h14,
    (onSendUlHeader scenarioParams 4 (1245 / 1000000) s3).1,
    (onSendUlHeader scenarioParams 4 (1245 / 1000000) s3).2,
    { (onSendUlHeader scenarioParams 4 (1245 / 1000000) s3).1 with
        queue_TC3 := [queuedPacket 4 500],
        onu_grant_TC3 := (onSendUlHeader scenarioParams 4 (1245 / 1000000) s3).1.onu_grant_TC3
          - (queuedPacket 3 500).getByteLength,
        pending_buffer_TC3 :=
          (onSendUlHeader scenarioParams 4 (1245 / 1000000) s3).1.pending_buffer_TC3
          - (queuedPacket 3 500).getByteLength },
    { (onSendUlHeader scenarioParams 4 (1245 / 1000000) s3).1 with
        queue_TC3 := [],
        onu_grant_TC3 := (onSendUlHeader scenarioParams 4 (1245 / 1000000) s3).1.onu_grant_TC3
          - (queuedPacket 3 500).getByteLength - (queuedPacket 4 500).getByteLength,
        pending_buffer_TC3 :=
          (onSendUlHeader scenarioParams 4 (1245 / 1000000) s3).1.pending_buffer_TC3
          - (queuedPacket 3 500).getByteLength - (queuedPacket 4 500).getByteLength },
    ?_, hu1g, ?_, ?_, ?_, ?_, rfl, ?_⟩
  · rw [handleMessage_send_ul_header]
  · intro t
    rw [handleMessage_send_ul_payload,
      onSendUlPayload_emit scenarioParams t _ (queuedPacket 3 500) [queuedPacket 4 500] hu1q
        (by rw [hu1g]; norm_num) (by rw [hu1p]; norm_num) (by rw [hu1g, hb]; norm_num), hbit3]
    rfl
  · show (onSendUlHeader scenarioParams 4 (1245 / 1000000) s3).1.onu_grant_TC3
      - ((queuedPacket 3 500).getByteLength : ℚ) = 1482
    rw [hu1g, hb]; norm_num
  · intro t
    rw [handleMessage_send_ul_payload,
      onSendUlPayload_emit scenarioParams t _ (queuedPacket 4 500) [] rfl
        (by
          show 0 < (onSendUlHeader scenarioParams 4 (1245 / 1000000) s3).1.onu_grant_TC3
            - ((queuedPacket 3 500).getByteLength : ℚ)
          rw [hu1g, hb]; norm_num)
        (by
          show 0 < (onSendUlHeader scenarioParams 4 (1245 / 1000000) s3).1.pending_buffer_TC3
            - ((queuedPacket 3 500).getByteLength : ℚ)
          rw [hu1p, hb]; norm_num)
        (by
          show ((queuedPacket 4 500).getByteLength : ℚ)
            ≤ (onSendUlHeader scenarioParams 4 (1245 / 1000000) s3).1.onu_grant_TC3
              - ((queuedPacket 3 500).getByteLength : ℚ)
          rw [hu1g, hb, hb4]; norm_num), hbit4]
    rfl
  · show (onSendUlHeader scenarioParams 4 (1245 / 1000000) s3).1.onu_grant_TC3
      - ((queuedPacket 3 500).getByteLength : ℚ) - ((queuedPacket 4 500).getByteLength : ℚ) = 982
    rw [hu1g, hb, hb4]; norm_num
  · intro t
    rw [handleMessage_send_ul_payload]
    unfold onSendUlPayload
    have hn : ¬ (0 < (onSendUlHeader scenarioParams 4 (1245 / 1000000) s3).1.onu_grant_TC3
          - ((queuedPacket 3 500).getByteLength : ℚ) - ((queuedPacket 4 500).getByteLength : ℚ) ∧
        0 < (onSendUlHeader scenarioParams 4 (1245 / 1000000) s3).1.pending_buffer_TC3
          - ((queuedPacket 3 500).getByteLength : ℚ)
          - ((queuedPacket 4 500).getByteLength : ℚ)) := by
      rw [hu1p, hb, hb4]
      norm_num
    exact if_neg hn

/-! ## Emission times within a burst -/

theorem bitLength_le_bytes (p : ethPacket) : (p.bitLength : ℚ) ≤ 8 * (p.getByteLength : ℚ) := by
  have h : p.bitLength ≤ 8 * p.getByteLength := by
    unfold ethPacket.getByteLength
    omega
  exact_mod_cast h

theorem drain_times (prm : SimParams) (index : Nat) (hR : 0 < prm.pon_link_datarate) :
    ∀ (fuel : Nat) (now : ℚ) (s s1 : ONU) (acts : List Action),
      drain prm index fuel now s = .ok (s1, acts) →
        (∀ p ∈ sentData acts, now ≤ p.onuDepartureTime ∧
          p.onuDepartureTime + p.bitLength / prm.pon_link_datarate
            ≤ now + 8 * s.onu_grant_TC3 / prm.pon_link_datarate ∧
          ∃ q ∈ s.queue_TC3, q.bitLength = p.bitLength) ∧
        List.Chain' (fun p q : ethPacket =>
          q.onuDepartureTime = p.onuDepartureTime + p.bitLength / prm.pon_link_datarate)
          (sentData acts) ∧
        (∀ p, (sentData acts).head? = some p → p.onuDepartureTime = now) ∧
        List.Pairwise (fun p q : ethPacket =>
          p.onuDepartureTime + p.bitLength / prm.pon_link_datarate ≤ q.onuDepartureTime)
          (sentData acts) := by
  intro fuel
  induction fuel with
  | zero =>
    intro now s s1 acts h
    simp [drain] at h
  | succ fuel ih =>
    intro now s s1 acts h
    rcases onSendUlPayload_trichotomy prm now s with ⟨hd, _⟩ | hd | ⟨front, tail, hq, hg, hf, hd⟩
    · simp [drain, handleMessage_send_ul_payload, hd] at h
    · simp only [drain, handleMessage_send_ul_payload, hd, nextDrain, Except.ok.injEq,
        Prod.mk.injEq] at h
      obtain ⟨rfl, rfl⟩ := h
      exact ⟨by simp [sentData], by simp [sentData], by simp [sentData], by simp [sentData]⟩
    · simp only [drain, handleMessage_send_ul_payload, hd, nextDrain] at h
      cases hrun : drain prm index fuel (now + front.bitLength / prm.pon_link_datarate)
          { s with queue_TC3 := tail,
                   onu_grant_TC3 := s.onu_grant_TC3 - front.getByteLength,
                   pending_buffer_TC3 := s.pending_buffer_TC3 - front.getByteLength } with
      | error f => rw [hrun] at h; simp at h
      | ok r =>
        obtain ⟨s2, a2⟩ := r
        rw [hrun] at h
        simp only [Except.ok.injEq, Prod.mk.injEq] at h
        obtain ⟨rfl, rfl⟩ := h
        obtain ⟨hall, hchain, hhead, hpair⟩ := ih _ _ _ _ hrun
        have hsd : sentData ([Action.sendEth { front with onuDepartureTime := now },
            Action.emitLatency (now - front.onuArrivalTime),
            Action.reschedule (now + front.bitLength / prm.pon_link_datarate)] ++ a2)
            = { front with onuDepartureTime := now } :: sentData a2 := rfl
        have hbits : (0 : ℚ) ≤ front.bitLength / prm.pon_link_datarate :=
          div_nonneg (Nat.cast_nonneg _) (le_of_lt hR)
        have hfit : (front.bitLength : ℚ) / prm.pon_link_datarate
            ≤ 8 * s.onu_grant_TC3 / prm.pon_link_datarate := by
          apply div_le_div_of_nonneg_right _ (le_of_lt hR)
          linarith [bitLength_le_bytes front]
        have hshift : now + front.bitLength / prm.pon_link_datarate
            + 8 * (s.onu_grant_TC3 - front.getByteLength) / prm.pon_link_datarate
            ≤ now + 8 * s.onu_grant_TC3 / prm.pon_link_datarate := by
          have h1 : (front.bitLength : ℚ) / prm.pon_link_datarate
              ≤ 8 * (front.getByteLength : ℚ) / prm.pon_link_datarate :=
            div_le_div_of_nonneg_right (bitLength_le_bytes front) (le_of_lt hR)
          have h2 : 8 * (s.onu_grant_TC3 - front.getByteLength) / prm.pon_link_datarate
              = 8 * s.onu_grant_TC3 / prm.pon_link_datarate
                - 8 * (front.getByteLength : ℚ) / prm.pon_link_datarate := by
            ring
          rw [h2]
          linarith
        rw [hsd]
        refine ⟨?_, ?_, ?_, ?_⟩
        · intro p hp
          rcases List.mem_cons.mp hp with rfl | hp
          · exact ⟨le_refl _, by
              show now + (front.bitLength : ℚ) / prm.pon_link_datarate ≤ _
              linarith, front, by rw [hq]; exact List.mem_cons_self _ _, rfl⟩
          · obtain ⟨h1, h2, q, hqm, hqb⟩ := hall p hp
            have h2a : p.onuDepartureTime + p.bitLength / prm.pon_link_datarate
                ≤ now + front.bitLength / prm.pon_link_datarate
                  + 8 * (s.onu_grant_TC3 - front.getByteLength) / prm.pon_link_datarate := h2
            exact ⟨by linarith, by linarith, q, by rw [hq]; exact List.mem_cons_of_mem _ hqm, hqb⟩
        · rw [List.chain'_cons']
          refine ⟨?_, hchain⟩
          intro y hy
          exact hhead y hy
        · intro p hp
          simp only [List.head?_cons, Option.some.injEq] at hp
          rw [← hp]
        · rw [List.pairwise_cons]
          refine ⟨?_, hpair⟩
          intro p hp
          exact (hall p hp).1

theorem burst_times (prm : SimParams) (index : Nat) (hR : 0 < prm.pon_link_datarate)
    (fuel : Nat) (t0 : ℚ) (s s1 : ONU) (acts : List Action)
    (h : burst prm index fuel t0 s = .ok (s1, acts)) :
    (∀ p ∈ sentData acts, t0 + 144 / prm.pon_link_datarate ≤ p.onuDepartureTime ∧
      p.onuDepartureTime + p.bitLength / prm.pon_link_datarate
        ≤ t0 + 8 * s.onu_rx_grant_TC3 / prm.pon_link_datarate ∧
      ∃ q ∈ s.queue_TC3, q.bitLength = p.bitLength) ∧
    List.Chain' (fun p q : ethPacket =>
      q.onuDepartureTime = p.onuDepartureTime + p.bitLength / prm.pon_link_datarate)
      (sentData acts) ∧
    (∀ p, (sentData acts).head? = some p →
      p.onuDepartureTime = t0 + 144 / prm.pon_link_datarate) ∧
    List.Pairwise (fun p q : ethPacket =>
      p.onuDepartureTime + p.bitLength / prm.pon_link_datarate ≤ q.onuDepartureTime)
      (sentData acts) := by
  rw [burst_unfold] at h
  have ht : t0 + ((8 * (3 + 1 + 1 + 5 + 8) : Nat) : ℚ) / prm.pon_link_datarate
      = t0 + 144 / prm.pon_link_datarate := by norm_num
  rw [ht] at h
  cases hrun : drain prm index fuel (t0 + 144 / prm.pon_link_datarate)
      (onSendUlHeader prm index t0 s).1 with
  | error f => rw [hrun] at h; simp at h
  | ok r =>
    obtain ⟨s2, a2⟩ := r
    rw [hrun] at h
    simp only [Except.ok.injEq, Prod.mk.injEq] at h
    obtain ⟨rfl, rfl⟩ := h
    obtain ⟨hall, hchain, hhead, hpair⟩ := drain_times prm index hR _ _ _ _ _ hrun
    have hsent : sentData ((onSendUlHeader prm index t0 s).2 ++ a2) = sentData a2 := by
      rw [sentData_append]
      rfl
    rw [hsent]
    refine ⟨?_, hchain, hhead, hpair⟩
    intro p hp
    obtain ⟨h1, h2, hq⟩ := hall p hp
    have h2a : p.onuDepartureTime + p.bitLength / prm.pon_link_datarate
        ≤ t0 + 144 / prm.pon_link_datarate
          + 8 * (s.onu_rx_grant_TC3 - (3 + 1 + 1 + 5 + 8)) / prm.pon_link_datarate := h2
    have h3 : t0 + 144 / prm.pon_link_datarate
          + 8 * (s.onu_rx_grant_TC3 - (3 + 1 + 1 + 5 + 8)) / prm.pon_link_datarate
        = t0 + 8 * s.onu_rx_grant_TC3 / prm.pon_link_datarate := by
      ring
    rw [h3] at h2a
    exact ⟨h1, h2a, hq⟩

/-- C13. Emission window: with link rate `R > 0`, every data packet sent in a
burst started at time `t0` with grant `rx_grant_3` is sent at a time `t` with
`t0 ≤ t ≤ t0 + rx_grant_3 / (R/8)`; the emission times are those of the
pacing rule (the first packet at `t0 + 144/R`, each next one at the previous
emission time plus `bitLength/R`). Started in a state where P3 is the byte
sum of Q3, the burst does run to its end. -/
theorem emission_window (prm : SimParams) (index : Nat) (t0 : ℚ) (s : ONU)
    (hR : 0 < prm.pon_link_datarate) :
    (∀ (fuel : Nat) (s1 : ONU) (acts : List Action),
      burst prm index fuel t0 s = .ok (s1, acts) →
        (∀ p ∈ sentData acts, t0 ≤ p.onuDepartureTime ∧
          p.onuDepartureTime ≤ t0 + s.onu_rx_grant_TC3 / (prm.pon_link_datarate / 8)) ∧
        (∀ p, (sentData acts).head? = some p →
          p.onuDepartureTime = t0 + 144 / prm.pon_link_datarate) ∧
        List.Chain' (fun p q : ethPacket =>
          q.onuDepartureTime = p.onuDepartureTime + p.bitLength / prm.pon_link_datarate)
          (sentData acts)) ∧
    (s.pending_buffer_TC3 = queueBytes s.queue_TC3 →
      ∃ s1 acts, burst prm index (s.queue_TC3.length + 1) t0 s = .ok (s1, acts)) := by
  constructor
  · intro fuel s1 acts h
    obtain ⟨hall, hchain, hhead, _⟩ := burst_times prm index hR fuel t0 s s1 acts h
    refine ⟨?_, hhead, hchain⟩
    intro p hp
    obtain ⟨h1, h2, _⟩ := hall p hp
    have hpos : (0 : ℚ) ≤ 144 / prm.pon_link_datarate := div_nonneg (by norm_num) (le_of_lt hR)
    have hbits : (0 : ℚ) ≤ p.bitLength / prm.pon_link_datarate :=
      div_nonneg (Nat.cast_nonneg _) (le_of_lt hR)
    have hw : s.onu_rx_grant_TC3 / (prm.pon_link_datarate / 8)
        = 8 * s.onu_rx_grant_TC3 / prm.pon_link_datarate := by
      field_simp
      ring
    rw [hw]
    exact ⟨by linarith, by linarith⟩
  · intro hc
    obtain ⟨s1, acts, hrun, _⟩ := burst_count prm index t0 s hc
    exact ⟨s1, acts, hrun⟩

/-- Witness of C13 in scenario 2 (`R = 1.244·10⁹`, grant `1100`, four 500-byte
packets): the burst runs to its end and every packet it sends is sent within
the window. -/
theorem emission_window_witness :
    0 < scenarioParams.pon_link_datarate ∧
    ∃ s1 acts,
      burst scenarioParams 4 ((onuWith scenario2Queue 1100 0).queue_TC3.length + 1) 0
        (onuWith scenario2Queue 1100 0) = .ok (s1, acts) ∧
      ∀ p ∈ sentData acts, 0 ≤ p.onuDepartureTime ∧
        p.onuDepartureTime
          ≤ 0 + (onuWith scenario2Queue 1100 0).onu_rx_grant_TC3
              / (scenarioParams.pon_link_datarate / 8) :=
  ⟨by norm_num [scenarioParams],
   let ⟨s1, acts, h⟩ :=
     (emission_window scenarioParams 4 0 (onuWith scenario2Queue 1100 0)
       (by norm_num [scenarioParams])).2 rfl
   ⟨s1, acts, h,
    ((emission_window scenarioParams 4 0 (onuWith scenario2Queue 1100 0)
       (by norm_num [scenarioParams])).1 _ s1 acts h).1⟩⟩

theorem drainCount_zeroByteQueue :
    drainCount (1100 - 18) (queueBytes zeroByteQueue) zeroByteQueue = 2 := by
  norm_num [drainCount, zeroByteQueue, queueBytes, packetOfBytes_getByteLength]

/-- C17 fails as stated: with a zero-byte packet at the front of Q3 followed
by a 500-byte packet and `rx_grant_3 = 1100`, the burst sends both packets,
in queue order, at the same simulated time: the emission times are not
strictly increasing. -/
theorem pacing_counterexample :
    0 < scenarioParams.pon_link_datarate ∧
    ∃ s1 acts a b,
      burst scenarioParams 4 3 0 (onuWith zeroByteQueue 1100 0) = .ok (s1, acts) ∧
      sentData acts = [a, b] ∧ a.payload = 1 ∧ b.payload = 2 ∧ a.getByteLength = 0 ∧
      b.onuDepartureTime = a.onuDepartureTime ∧
      ¬ (a.onuDepartureTime < b.onuDepartureTime) := by
  have hR : 0 < scenarioParams.pon_link_datarate := by norm_num [scenarioParams]
  refine ⟨hR, ?_⟩
  obtain ⟨s1, acts, hrun, _, _, _, _, hsent, _, _⟩ :=
    burst_count scenarioParams 4 0 (onuWith zeroByteQueue 1100 0) rfl
  have hcount : drainCount ((onuWith zeroByteQueue 1100 0).onu_rx_grant_TC3 - 18)
      (onuWith zeroByteQueue 1100 0).pending_buffer_TC3 (onuWith zeroByteQueue 1100 0).queue_TC3
      = 2 := drainCount_zeroByteQueue
  rw [hcount] at hsent
  obtain ⟨_, hchain, _, _⟩ := burst_times scenarioParams 4 hR _ 0 _ s1 acts hrun
  cases hs : sentData acts with
  | nil => rw [hs] at hsent; simp [onuWith, zeroByteQueue] at hsent
  | cons a rest =>
    cases rest with
    | nil => rw [hs] at hsent; simp [onuWith, zeroByteQueue] at hsent
    | cons b rest2 =>
      cases rest2 with
      | cons c rest3 => rw [hs] at hsent; simp [onuWith, zeroByteQueue] at hsent
      | nil =>
        rw [hs] at hsent hchain
        have ha : a.withoutDeparture = packetOfBytes 1 0 := by
          simp only [onuWith, zeroByteQueue, List.take, List.map_cons, List.map_nil,
            List.cons.injEq] at hsent
          rw [hsent.1]; rfl
        have hb : b.withoutDeparture = packetOfBytes 2 500 := by
          simp only [onuWith, zeroByteQueue, List.take, List.map_cons, List.map_nil,
            List.cons.injEq] at hsent
          rw [hsent.2.1]; rfl
        have hap : a.payload = 1 := congrArg ethPacket.payload ha
        have hbp : b.payload = 2 := congrArg ethPacket.payload hb
        have hab : a.bitLength = 0 := congrArg ethPacket.bitLength ha
        have hdep : b.onuDepartureTime = a.onuDepartureTime := by
          have h := List.chain'_cons.mp hchain
          rw [h.1, hab]
          simp
        refine ⟨s1, acts, a, b, hrun, hs, hap, hbp, ?_, hdep, ?_⟩
        · simp [ethPacket.getByteLength, hab]
        · rw [hdep]; exact lt_irrefl _

/-- C17 as amended: with link rate `R > 0`, a drain fire that sends a packet
`p` at time `t` re-arms the drain event at exactly `t + bitLength(p)/R`;
consequently, in every burst each packet is sent exactly when the last bit
of the packet before it has left, no packet is sent before the last bit of
any earlier one, so the emission times are non-decreasing in sending order,
and strictly increasing when every packet of Q3 has a positive bit length (a
zero-byte packet and the packet behind it are sent at the same time). Started
in a state where P3 is the byte sum of Q3, the burst runs to its end and the
packets sent are the first packets of Q3 in queue order. -/
theorem serialization_pacing (prm : SimParams) (index : Nat)
    (hR : 0 < prm.pon_link_datarate) :
    (∀ (s s1 : ONU) (t tb : ℚ) (a1 : List Action) (p : ethPacket),
      handleMessage prm index t (Msg.send_ul_payload tb) s = .ok (s1, a1) →
      p ∈ sentData a1 →
        sentData a1 = [p] ∧ p.onuDepartureTime = t ∧
        nextDrain a1 = some (t + p.bitLength / prm.pon_link_datarate)) ∧
    (∀ (fuel : Nat) (t0 : ℚ) (s s1 : ONU) (acts : List Action),
      burst prm index fuel t0 s = .ok (s1, acts) →
        List.Chain' (fun p q : ethPacket =>
          q.onuDepartureTime = p.onuDepartureTime + p.bitLength / prm.pon_link_datarate)
          (sentData acts) ∧
        List.Pairwise (fun p q : ethPacket =>
          p.onuDepartureTime + p.bitLength / prm.pon_link_datarate ≤ q.onuDepartureTime)
          (sentData acts) ∧
        List.Pairwise (fun p q : ethPacket => p.onuDepartureTime ≤ q.onuDepartureTime)
          (sentData acts) ∧
        ((∀ q ∈ s.queue_TC3, 0 < q.bitLength) →
          List.Pairwise (fun p q : ethPacket => p.onuDepartureTime < q.onuDepartureTime)
            (sentData acts))) ∧
    (∀ (t0 : ℚ) (s : ONU), s.pending_buffer_TC3 = queueBytes s.queue_TC3 →
      ∃ m s1 acts, burst prm index (s.queue_TC3.length + 1) t0 s = .ok (s1, acts) ∧
        (sentData acts).map ethPacket.withoutDeparture
          = (s.queue_TC3.take m).map ethPacket.withoutDeparture) := by
  refine ⟨?_, ?_, ?_⟩
  · intro s s1 t tb a1 p h hp
    rw [handleMessage_send_ul_payload] at h
    rcases onSendUlPayload_trichotomy prm t s with ⟨hd, _⟩ | hd | ⟨front, tail, _, _, _, hd⟩
    · rw [hd] at h; simp at h
    · rw [hd] at h
      simp only [Except.ok.injEq, Prod.mk.injEq] at h
      rw [← h.2] at hp
      simp [sentData] at hp
    · rw [hd] at h
      simp only [Except.ok.injEq, Prod.mk.injEq] at h
      rw [← h.2] at hp ⊢
      simp only [sentData, List.mem_singleton] at hp
      subst hp
      exact ⟨rfl, rfl, rfl⟩
  · intro fuel t0 s s1 acts h
    obtain ⟨hall, hchain, _, hpair⟩ := burst_times prm index hR fuel t0 s s1 acts h
    have hnn : ∀ p : ethPacket, (0 : ℚ) ≤ p.bitLength / prm.pon_link_datarate := fun p =>
      div_nonneg (Nat.cast_nonneg _) (le_of_lt hR)
    refine ⟨hchain, hpair, ?_, ?_⟩
    · exact hpair.imp (fun {p q} hpq => by linarith [hnn p])
    · intro hpos
      refine hpair.imp_of_mem (fun {p q} hp _ hpq => ?_)
      obtain ⟨_, _, q0, hq0, hbits⟩ := hall p hp
      have hb : (0 : ℚ) < p.bitLength := by
        rw [← hbits]
        exact_mod_cast hpos q0 hq0
      have : (0 : ℚ) < p.bitLength / prm.pon_link_datarate := div_pos hb hR
      linarith
  · intro t0 s hc
    obtain ⟨s1, acts, hrun, _, _, _, _, hsent, _, _⟩ := burst_count prm index t0 s hc
    exact ⟨_, s1, acts, hrun, hsent⟩

/-- Witness of amended C17 in scenario 2: packets of positive length, sent
at strictly increasing times. -/
theorem serialization_pacing_witness :
    0 < scenarioParams.pon_link_datarate ∧
    (∀ q ∈ (onuWith scenario2Queue 1100 0).queue_TC3, 0 < q.bitLength) ∧
    ∃ s1 acts,
      burst scenarioParams 4 ((onuWith scenario2Queue 1100 0).queue_TC3.length + 1) 0
        (onuWith scenario2Queue 1100 0) = .ok (s1, acts) ∧
      List.Pairwise (fun p q : ethPacket => p.onuDepartureTime < q.onuDepartureTime)
        (sentData acts) := by
  have hR : 0 < scenarioParams.pon_link_datarate := by norm_num [scenarioParams]
  have hpos : ∀ q ∈ (onuWith scenario2Queue 1100 0).queue_TC3, 0 < q.bitLength := by
    intro q hq
    simp only [onuWith, scenario2Queue, List.mem_cons, List.mem_singleton,
      List.not_mem_nil, or_false] at hq
    rcases hq with rfl | rfl | rfl | rfl <;> simp [packetOfBytes]
  obtain ⟨_, s1, acts, hrun, _⟩ :=
    (serialization_pacing scenarioParams 4 hR).2.2 0 (onuWith scenario2Queue 1100 0) rfl
  exact ⟨hR, hpos, s1, acts, hrun,
    ((serialization_pacing scenarioParams 4 hR).2.1 _ 0 _ s1 acts hrun).2.2.2 hpos⟩

/-! ## Latency telemetry -/

theorem latencySamples_append (a b : List Action) :
    latencySamples (a ++ b) = latencySamples a ++ latencySamples b := by
  induction a with
  | nil => rfl
  | cons x a ih => cases x <;> simp [latencySamples, ih]

theorem step_latency (prm : SimParams) (index : Nat) (now T : ℚ) (msg : Msg) (s s1 : ONU)
    (a1 : List Action) (hT : T ≤ now) (hinv : ∀ q ∈ s.queue_TC3, q.onuArrivalTime ≤ T)
    (h : handleMessage prm index now msg s = .ok (s1, a1)) :
    latencySamples a1
      = (sentData a1).map (fun p => p.onuDepartureTime - p.onuArrivalTime) ∧
    (∀ p ∈ sentData a1, p.onuDepartureTime = now ∧ p.onuArrivalTime ≤ now ∧
      msg.name = "send_ul_payload") ∧
    (∀ q ∈ s1.queue_TC3, q.onuArrivalTime ≤ now) := by
  have hkeep : ∀ q ∈ s.queue_TC3, q.onuArrivalTime ≤ now := fun q hq => le_trans (hinv q hq) hT
  rcases handleMessage_cases prm index now msg s with
    ⟨p, _, _, he⟩ | ⟨g, _, _, he⟩ | ⟨p, _, _, he⟩ | ⟨_, _, he⟩ | ⟨_, hn, he⟩ | ⟨he, _⟩ | ⟨he, _⟩
  · rw [he] at h
    simp only [Except.ok.injEq] at h
    unfold onBkgData at h
    by_cases hk : s.pending_buffer_TC1 + s.pending_buffer_TC2 + s.pending_buffer_TC3
        + p.getByteLength ≤ prm.onu_buffer_capacity
    · simp only [if_pos hk, Prod.mk.injEq] at h
      obtain ⟨rfl, rfl⟩ := h
      refine ⟨rfl, by simp [sentData], ?_⟩
      intro q hq
      rcases List.mem_append.mp hq with hq | hq
      · exact hkeep q hq
      · rw [List.mem_singleton] at hq
        rw [hq]
    · simp only [if_neg hk, Prod.mk.injEq] at h
      obtain ⟨rfl, rfl⟩ := h
      exact ⟨rfl, by simp [sentData], hkeep⟩
  · rw [he] at h
    simp only [Except.ok.injEq, onGtcHdrDl, Prod.mk.injEq] at h
    obtain ⟨rfl, rfl⟩ := h
    exact ⟨rfl, by simp [sentData], hkeep⟩
  · rw [he] at h
    simp only [Except.ok.injEq, onPing, Prod.mk.injEq] at h
    obtain ⟨rfl, rfl⟩ := h
    exact ⟨rfl, by simp [sentData], hkeep⟩
  · rw [he] at h
    simp only [Except.ok.injEq, onSendUlHeader, Prod.mk.injEq] at h
    obtain ⟨rfl, rfl⟩ := h
    exact ⟨rfl, by simp [sentData], hkeep⟩
  · rw [he] at h
    rcases onSendUlPayload_trichotomy prm now s with ⟨hd, _⟩ | hd | ⟨front, tail, hq, _, _, hd⟩
    · rw [hd] at h; simp at h
    · rw [hd] at h
      simp only [Except.ok.injEq, Prod.mk.injEq] at h
      obtain ⟨rfl, rfl⟩ := h
      exact ⟨rfl, by simp [sentData], hkeep⟩
    · rw [hd] at h
      simp only [Except.ok.injEq, Prod.mk.injEq] at h
      obtain ⟨rfl, rfl⟩ := h
      have hfront : front.onuArrivalTime ≤ now :=
        hkeep front (by rw [hq]; exact List.mem_cons_self _ _)
      refine ⟨rfl, ?_, ?_⟩
      · intro p hp
        simp only [sentData, List.mem_singleton] at hp
        subst hp
        exact ⟨rfl, hfront, hn⟩
      · intro q hqm
        exact hkeep q (by rw [hq]; exact List.mem_cons_of_mem _ hqm)
  · rw [he] at h
    simp only [Except.ok.injEq, Prod.mk.injEq] at h
    obtain ⟨rfl, rfl⟩ := h
    exact ⟨rfl, by simp [sentData], hkeep⟩
  · rw [he] at h
    simp at h

theorem run_latency (prm : SimParams) (index : Nat) :
    ∀ (evs : List Event) (T : ℚ) (s s1 : ONU) (acts : List Action),
      (∀ q ∈ s.queue_TC3, q.onuArrivalTime ≤ T) →
      List.Chain (fun a b : ℚ => a ≤ b) T (evs.map Event.now) →
      run prm index s evs = .ok (s1, acts) →
        latencySamples acts
          = (sentData acts).map (fun p => p.onuDepartureTime - p.onuArrivalTime) ∧
        (∀ p ∈ sentData acts, p.onuArrivalTime ≤ p.onuDepartureTime ∧
          ∃ e ∈ evs, e.msg.name = "send_ul_payload" ∧ p.onuDepartureTime = e.now) := by
  intro evs
  induction evs with
  | nil =>
    intro T s s1 acts _ _ h
    simp only [run, Except.ok.injEq, Prod.mk.injEq] at h
    obtain ⟨rfl, rfl⟩ := h
    exact ⟨rfl, by simp [sentData]⟩
  | cons e es ih =>
    intro T s s1 acts hinv hchain h
    simp only [List.map_cons, List.chain_cons] at hchain
    obtain ⟨hT, hrest⟩ := hchain
    cases hstep : handleMessage prm index e.now e.msg s with
    | error f => simp [run, hstep] at h
    | ok r =>
      obtain ⟨s2, a2⟩ := r
      cases hrun : run prm index s2 es with
      | error f => simp [run, hstep, hrun] at h
      | ok r2 =>
        obtain ⟨s3, a3⟩ := r2
        simp only [run, hstep, hrun, Except.ok.injEq, Prod.mk.injEq] at h
        obtain ⟨rfl, rfl⟩ := h
        obtain ⟨hl1, hs1, hq1⟩ := step_latency prm index e.now T e.msg s s2 a2 hT hinv hstep
        obtain ⟨hl2, hs2⟩ := ih e.now s2 s3 a3 hq1 hrest hrun
        refine ⟨?_, ?_⟩
        · rw [latencySamples_append, sentData_append, List.map_append, hl1, hl2]
        · intro p hp
          rw [sentData_append] at hp
          rcases List.mem_append.mp hp with hp | hp
          · obtain ⟨hd, ha, hn⟩ := hs1 p hp
            exact ⟨by rw [hd]; exact ha, e, List.mem_cons_self _ _, hn, hd⟩
          · obtain ⟨ha, e1, he1, hn, hd⟩ := hs2 p hp
            exact ⟨ha, e1, List.mem_cons_of_mem _ he1, hn, hd⟩

/-- C14. Latency telemetry: from the initial state, for every sequence of
events with non-decreasing times that is not aborted by a failed cast, the
latency samples emitted are, in order, exactly one per data packet sent
upstream, each equal to the packet's departure stamp minus its arrival
stamp, and each `≥ 0`; the departure stamp is the time of a
`send_ul_payload` event of the trace, and the arrival stamp is the one set at
admission (the packets sent are the first admitted packets, changed in their
departure stamp only). -/
theorem latency_telemetry (prm : SimParams) (index : Nat) (evs : List Event)
    (hsorted : List.Chain' (fun a b : ℚ => a ≤ b) (evs.map Event.now)) :
    (∃ s acts done, run prm index (ONU.init prm) evs = .ok (s, acts) ∧
      latencySamples acts
        = (sentData acts).map (fun p => p.onuDepartureTime - p.onuArrivalTime) ∧
      (∀ v ∈ latencySamples acts, 0 ≤ v) ∧
      (∀ p ∈ sentData acts,
        ∃ e ∈ evs, e.msg.name = "send_ul_payload" ∧ p.onuDepartureTime = e.now) ∧
      admitted prm index (ONU.init prm) evs = done ++ s.queue_TC3 ∧
      (sentData acts).map ethPacket.withoutDeparture = done.map ethPacket.withoutDeparture) ∨
    (run prm index (ONU.init prm) evs = .error .castFailure ∧
      ∃ e ∈ evs, e.msg.castOk = false) := by
  rcases run_summary prm index evs (ONU.init prm) (coherent_init prm) with
    h | ⟨s, acts, done, hrun, _, hq, hsent, _⟩
  · exact Or.inr h
  · have hq1 : admitted prm index (ONU.init prm) evs = done ++ s.queue_TC3 := by
      simpa [ONU.init] using hq
    have hinit : ∀ T : ℚ, ∀ q ∈ (ONU.init prm).queue_TC3, q.onuArrivalTime ≤ T := by
      intro T q hqm
      simp [ONU.init] at hqm
    have hchain : ∃ T : ℚ, List.Chain (fun a b : ℚ => a ≤ b) T (evs.map Event.now) := by
      cases evs with
      | nil => exact ⟨0, List.Chain.nil⟩
      | cons e es =>
        refine ⟨e.now, ?_⟩
        simp only [List.map_cons]
        exact List.Chain.cons (le_refl _) hsorted
    obtain ⟨T, hT⟩ := hchain
    obtain ⟨hl, hs⟩ := run_latency prm index evs T (ONU.init prm) s acts (hinit T) hT hrun
    refine Or.inl ⟨s, acts, done, hrun, hl, ?_, fun p hp => (hs p hp).2, hq1, hsent⟩
    intro v hv
    rw [hl, List.mem_map] at hv
    obtain ⟨p, hp, rfl⟩ := hv
    linarith [(hs p hp).1]

/-- Witness of C14 on the events of scenario 1, whose times are
non-decreasing and none of which fails a cast. -/
theorem latency_telemetry_witness :
    List.Chain' (fun a b : ℚ => a ≤ b) (scenario1Events.map Event.now) ∧
    ∃ s acts,
      run scenarioParams 4 (ONU.init scenarioParams) scenario1Events = .ok (s, acts) ∧
      latencySamples acts
        = (sentData acts).map (fun p => p.onuDepartureTime - p.onuArrivalTime) ∧
      (∀ v ∈ latencySamples acts, 0 ≤ v) := by
  have hsorted : List.Chain' (fun a b : ℚ => a ≤ b) (scenario1Events.map Event.now) := by
    simp only [scenario1Events, List.map_cons, List.map_nil, List.chain'_cons,
      List.chain'_singleton, and_true]
    norm_num
  refine ⟨hsorted, ?_⟩
  rcases latency_telemetry scenarioParams 4 scenario1Events hsorted with
    ⟨s, acts, _, hrun, hl, hnn, _⟩ | ⟨_, e, he, hbad⟩
  · exact ⟨s, acts, hrun, hl, hnn⟩
  · exfalso
    revert hbad
    simp only [scenario1Events, List.mem_cons, List.mem_singleton, List.not_mem_nil,
      or_false] at he
    rcases he with rfl | rfl | rfl | rfl | rfl <;>
      simp [Msg.castOk, Msg.bkg_data, Msg.gtc_hdr_dl, Msg.send_ul_header, Msg.send_ul_payload]

/-! ## Pending self-events -/

theorem handle_armed (prm : SimParams) (index : Nat) (now : ℚ) (msg : Msg) (s s1 : ONU)
    (a1 : List Action) (h : handleMessage prm index now msg s = .ok (s1, a1)) :
    (armed msg.name a1).length ≤ 1 ∧
    (∀ tm ∈ armed msg.name a1, tm.name = "send_ul_header" ∨ tm.name = "send_ul_payload") ∧
    (armed msg.name a1 ≠ [] →
      (msg.isPacket = true ∧ msg.name = "gtc_hdr_dl") ∨
      (msg.isPacket = false ∧ (msg.name = "send_ul_header" ∨ msg.name = "send_ul_payload"))) := by
  rcases handleMessage_cases prm index now msg s with
    ⟨p, _, _, he⟩ | ⟨g, hb, hn, he⟩ | ⟨p, _, _, he⟩ | ⟨hp, hn, he⟩ | ⟨hp, hn, he⟩ | ⟨he, _⟩ |
    ⟨he, _⟩
  · rw [he] at h
    simp only [Except.ok.injEq] at h
    have ha : a1 = [] := by
      have h2 : (onBkgData prm index now p s).2 = a1 := by rw [h]
      rw [← h2]
      unfold onBkgData
      by_cases hk : s.pending_buffer_TC1 + s.pending_buffer_TC2 + s.pending_buffer_TC3
          + p.getByteLength ≤ prm.onu_buffer_capacity
      · simp only [if_pos hk]
      · simp only [if_neg hk]
    subst ha
    simp [armed]
  · rw [he] at h
    simp only [Except.ok.injEq, onGtcHdrDl, Prod.mk.injEq] at h
    obtain ⟨_, rfl⟩ := h
    have hpk : msg.isPacket = true := by simp [Msg.isPacket, hb]
    simp [armed, hpk, hn]
  · rw [he] at h
    simp only [Except.ok.injEq, onPing, Prod.mk.injEq] at h
    obtain ⟨_, rfl⟩ := h
    simp [armed]
  · rw [he] at h
    simp only [Except.ok.injEq, onSendUlHeader, Prod.mk.injEq] at h
    obtain ⟨_, rfl⟩ := h
    simp [armed, hp, hn]
  · rw [he] at h
    rcases onSendUlPayload_trichotomy prm now s with ⟨hd, _⟩ | hd | ⟨front, tail, _, _, _, hd⟩
    · rw [hd] at h; simp at h
    · rw [hd] at h
      simp only [Except.ok.injEq, Prod.mk.injEq] at h
      obtain ⟨_, rfl⟩ := h
      simp [armed]
    · rw [hd] at h
      simp only [Except.ok.injEq, Prod.mk.injEq] at h
      obtain ⟨_, rfl⟩ := h
      simp [armed, hp, hn]
  · rw [he] at h
    simp only [Except.ok.injEq, Prod.mk.injEq] at h
    obtain ⟨_, rfl⟩ := h
    simp [armed]
  · rw [he] at h
    simp at h

theorem world_step_summary (prm : SimParams) (index : Nat) (w : World) (st : Stimulus)
    (hc : Coherent w.onu)
    (hnames : ∀ tm ∈ w.pending, tm.name = "send_ul_header" ∨ tm.name = "send_ul_payload")
    (hext : st.external = true) :
    (World.step prm index w st = .error .castFailure ∧ st.castOk = false) ∨
    ∃ w1, World.step prm index w st = .ok w1 ∧ Coherent w1.onu ∧
      (∀ tm ∈ w1.pending, tm.name = "send_ul_header" ∨ tm.name = "send_ul_payload") ∧
      w1.pending.length ≤ w.pending.length + (if st.isHeaderArrival = true then 1 else 0) := by
  cases st with
  | arrive now msg =>
    rcases step_summary prm index now msg w.onu hc with ⟨herr, hbad⟩ |
      ⟨s1, a1, _, hstep, hc1, _, _, _⟩
    · left
      exact ⟨by simp [World.step, herr], hbad⟩
    · right
      obtain ⟨hlen, hnm, hne⟩ := handle_armed prm index now msg w.onu s1 a1 hstep
      refine ⟨{ onu := s1, pending := w.pending ++ armed msg.name a1 },
        by simp [World.step, hstep], hc1, ?_, ?_⟩
      · intro tm htm
        rcases List.mem_append.mp htm with h | h
        · exact hnames tm h
        · exact hnm tm h
      · simp only [List.length_append]
        by_cases hh : (Stimulus.arrive now msg).isHeaderArrival = true
        · rw [if_pos hh]; omega
        · rw [if_neg hh]
          have hnil : armed msg.name a1 = [] := by
            by_contra hcon
            rcases hne hcon with ⟨hp, hn⟩ | ⟨hp, hn⟩
            · exact hh (by simp [Stimulus.isHeaderArrival, hp, hn])
            · simp only [Stimulus.external, hp, Bool.false_or, Bool.and_eq_true,
                decide_eq_true_eq] at hext
              rcases hn with hn | hn
              · exact hext.1 hn
              · exact hext.2 hn
          rw [hnil]
          simp
  | fire k =>
    cases hk : w.pending[k]? with
    | none =>
      right
      exact ⟨w, by simp [World.step, hk], hc, hnames, by omega⟩
    | some tm =>
      obtain ⟨hlt, hget⟩ := List.getElem?_eq_some.mp hk
      have hmem : tm ∈ w.pending := by
        rw [← hget]
        exact List.getElem_mem _
      have hname := hnames tm hmem
      rcases step_summary prm index tm.time
          { name := tm.name, body := .plain, arrivalTime := tm.time } w.onu hc with
        ⟨_, hbad⟩ | ⟨s1, a1, _, hstep, hc1, _, _, _⟩
      · exfalso
        rcases hname with hn | hn <;> simp [Msg.castOk, hn] at hbad
      · right
        obtain ⟨hlen, hnm, _⟩ := handle_armed prm index tm.time
          { name := tm.name, body := .plain, arrivalTime := tm.time } w.onu s1 a1 hstep
        refine ⟨{ onu := s1, pending := w.pending.eraseIdx k ++ armed tm.name a1 },
          by simp [World.step, hk, hstep], hc1, ?_, ?_⟩
        · intro t2 ht2
          rcases List.mem_append.mp ht2 with h | h
          · exact hnames t2 (List.mem_of_mem_eraseIdx h)
          · exact hnm t2 h
        · have he : (w.pending.eraseIdx k).length = w.pending.length - 1 :=
            List.length_eraseIdx_of_lt hlt
          have hl : (armed tm.name a1).length ≤ 1 := hlen
          simp only [List.length_append, Stimulus.isHeaderArrival]
          omega

theorem world_run_summary (prm : SimParams) (index : Nat) :
    ∀ (stims : List Stimulus) (w : World), Coherent w.onu →
      (∀ tm ∈ w.pending, tm.name = "send_ul_header" ∨ tm.name = "send_ul_payload") →
      (∀ st ∈ stims, st.external = true) →
      (World.run prm index w stims = .error .castFailure ∧
        ∃ st ∈ stims, st.castOk = false) ∨
      ∃ w1, World.run prm index w stims = .ok w1 ∧
        (∀ tm ∈ w1.pending, tm.name = "send_ul_header" ∨ tm.name = "send_ul_payload") ∧
        w1.pending.length ≤ w.pending.length + headerArrivals stims ∧
        (World.spaced prm index w stims = true → w.pending.length ≤ 1 →
          w1.pending.length ≤ 1) := by
  intro stims
  induction stims with
  | nil =>
    intro w _ hnames _
    right
    exact ⟨w, rfl, hnames, by simp [headerArrivals], fun _ h => h⟩
  | cons st rest ih =>
    intro w hc hnames hext
    have hext1 : st.external = true := hext st (List.mem_cons_self _ _)
    have hext2 : ∀ x ∈ rest, x.external = true := fun x hx =>
      hext x (List.mem_cons_of_mem _ hx)
    rcases world_step_summary prm index w st hc hnames hext1 with ⟨herr, hbad⟩ |
      ⟨w1, hstep, hc1, hn1, hlen1⟩
    · left
      exact ⟨by simp [World.run, herr], st, List.mem_cons_self _ _, hbad⟩
    · rcases ih w1 hc1 hn1 hext2 with ⟨herr, x, hx, hbad⟩ | ⟨w2, hrun, hn2, hlen2, hsp2⟩
      · left
        exact ⟨by simp [World.run, hstep, herr], x, List.mem_cons_of_mem _ hx, hbad⟩
      · right
        refine ⟨w2, by simp [World.run, hstep, hrun], hn2, ?_, ?_⟩
        · have hcount : headerArrivals (st :: rest)
              = (if st.isHeaderArrival = true then 1 else 0) + headerArrivals rest := by
            unfold headerArrivals
            by_cases hh : st.isHeaderArrival = true
            · simp [List.filter_cons, hh]; omega
            · simp [List.filter_cons, hh]
          rw [hcount]
          omega
        · intro hsp hw
          simp only [World.spaced, hstep, Bool.and_eq_true, Bool.or_eq_true,
            Bool.not_eq_true', List.isEmpty_iff] at hsp
          apply hsp2 hsp.2
          by_cases hh : st.isHeaderArrival = true
          · rw [if_pos hh] at hlen1
            rcases hsp.1 with h0 | h0
            · rw [hh] at h0; exact absurd h0 (by simp)
            · rw [h0] at hlen1
              simpa using hlen1
          · rw [if_neg hh] at hlen1
            omega

theorem timerCount_add (l : List Timer)
    (h : ∀ tm ∈ l, tm.name = "send_ul_header" ∨ tm.name = "send_ul_payload") :
    (l.filter fun tm => decide (tm.name = "send_ul_header")).length
      + (l.filter fun tm => decide (tm.name = "send_ul_payload")).length = l.length := by
  induction l with
  | nil => rfl
  | cons tm l ih =>
    have ih1 := ih (fun x hx => h x (List.mem_cons_of_mem _ hx))
    rcases h tm (List.mem_cons_self _ _) with hn | hn
    · simp [List.filter_cons, hn]
      omega
    · simp [List.filter_cons, hn]
      omega

/-- C18 fails as stated: two downstream headers arriving at `100 µs` and
`110 µs`, before the burst start scheduled by the first (`345 µs`), leave two
`send_ul_header` self-events pending. -/
theorem two_headers_counterexample :
    ∃ w, World.run scenarioParams 4 (World.init scenarioParams) twoHeaders = .ok w ∧
      w.pending.map Timer.time = [345 / 1000000, 355 / 1000000] ∧
      w.pending.map Timer.name = ["send_ul_header", "send_ul_header"] ∧
      w.timerCount "send_ul_header" = 2 ∧
      ¬ (w.timerCount "send_ul_header" ≤ 1) := by
  refine ⟨{ onu := (onGtcHdrDl scenarioParams 4 (110 / 1000000) scenarioHeader
                (onGtcHdrDl scenarioParams 4 (100 / 1000000) scenarioHeader
                  (ONU.init scenarioParams)).1).1,
            pending := [{ time := 345 / 1000000, name := "send_ul_header" },
                        { time := 355 / 1000000, name := "send_ul_header" }] },
    ?_, rfl, rfl, ?_, ?_⟩
  · simp only [World.run, World.step, twoHeaders, handleMessage_gtc_hdr_dl, World.init]
    simp only [onGtcHdrDl, armed, Msg.gtc_hdr_dl, scenarioHeader, scenarioParams,
      List.nil_append, List.cons_append]
    norm_num
  · simp [World.timerCount]
  · simp [World.timerCount]

/-- C18 as amended: from start-up, along every sequence of host steps
(arrivals of messages from other modules under any name but those of the two
self-events, and firings of pending self-events in any order) that is not
aborted by a failed cast, every pending self-event is a `send_ul_header` or a
`send_ul_payload` event and their number is at most the number of downstream
headers received so far, since a header's burst-start event is never
cancelled; at most one self-event is pending whenever every downstream header
arrived while none was pending. -/
theorem timer_bound (prm : SimParams) (index : Nat) (stims : List Stimulus)
    (hext : ∀ st ∈ stims, st.external = true) :
    (∃ w, World.run prm index (World.init prm) stims = .ok w ∧
      (∀ tm ∈ w.pending, tm.name = "send_ul_header" ∨ tm.name = "send_ul_payload") ∧
      w.timerCount "send_ul_header" + w.timerCount "send_ul_payload" = w.pending.length ∧
      w.pending.length ≤ headerArrivals stims ∧
      (World.spaced prm index (World.init prm) stims = true →
        w.timerCount "send_ul_header" + w.timerCount "send_ul_payload" ≤ 1)) ∨
    (World.run prm index (World.init prm) stims = .error .castFailure ∧
      ∃ st ∈ stims, st.castOk = false) := by
  rcases world_run_summary prm index stims (World.init prm) (coherent_init prm)
      (by intro tm htm; simp [World.init] at htm) hext with
    h | ⟨w, hrun, hnames, hlen, hsp⟩
  · exact Or.inr h
  · have hadd := timerCount_add w.pending hnames
    refine Or.inl ⟨w, hrun, hnames, hadd, by simpa [World.init] using hlen, ?_⟩
    intro hspaced
    have h1 := hsp hspaced (by simp [World.init])
    unfold World.timerCount
    omega

/-- Witness of amended C18 on one grant: the header arrives with no
self-event pending, the two self-events fire in turn, and at most one
self-event is pending at the end. -/
theorem timer_bound_witness :
    (∀ st ∈ singleGrantStimuli, st.external = true) ∧
    World.spaced scenarioParams 4 (World.init scenarioParams) singleGrantStimuli = true ∧
    ∃ w, World.run scenarioParams 4 (World.init scenarioParams) singleGrantStimuli = .ok w ∧
      w.pending.length ≤ headerArrivals singleGrantStimuli ∧
      w.timerCount "send_ul_header" + w.timerCount "send_ul_payload" ≤ 1 := by
  have hext : ∀ st ∈ singleGrantStimuli, st.external = true := by
    intro st hst
    simp only [singleGrantStimuli, List.mem_cons, List.mem_singleton, List.not_mem_nil,
      or_false] at hst
    rcases hst with rfl | rfl | rfl <;> simp [Stimulus.external, Msg.gtc_hdr_dl, Msg.isPacket]
  have hsp : World.spaced scenarioParams 4 (World.init scenarioParams) singleGrantStimuli
      = true := by
    simp only [World.spaced, singleGrantStimuli, World.init, List.isEmpty_nil, Bool.or_true,
      Bool.true_and, Stimulus.isHeaderArrival, Bool.not_false, Bool.true_or]
    split
    · rfl
    · split
      · rfl
      · split <;> rfl
  refine ⟨hext, hsp, ?_⟩
  rcases timer_bound scenarioParams 4 singleGrantStimuli hext with
    ⟨w, hrun, _, _, hlen, hone⟩ | ⟨_, st, hst, hbad⟩
  · exact ⟨w, hrun, hlen, hone hsp⟩
  · exfalso
    simp only [singleGrantStimuli, List.mem_cons, List.mem_singleton, List.not_mem_nil,
      or_false] at hst
    rcases hst with rfl | rfl | rfl <;>
      simp [Stimulus.castOk, Msg.castOk, Msg.gtc_hdr_dl] at hbad

end GPON
